import Mathlib

/-!
# Shared informer event counters

A shallow embedding of `main.go`: the nine package-level counters, the three
event handlers `onAdd`, `onUpdate`, `onDelete` registered with the Pod and the
ConfigMap informer, and the control flow of `main`.

Go's `int` is a fixed-width two's complement integer whose `+= 1` wraps
around; the width (32 or 64 bits) is fixed by the target platform and is a
parameter of every definition that does arithmetic.

A handler call can end in one of two run-time panics, both after the counter
has been incremented: the failed type assertion `newObj.(*T)` in `onUpdate`,
and the dereference of a nil `*corev1.Pod` or `*corev1.ConfigMap` in
`GetNamespace()`. Neither is recovered by the handlers.
-/

namespace Informer

/-! ## Go `int` -/

/-- Width of Go's `int`: 32 or 64 bits, depending on the target platform. -/
inductive IntSize where
  | bits32
  | bits64
deriving DecidableEq, Repr

/-- Number of bits of an `int`. -/
def IntSize.bits : IntSize → Nat
  | .bits32 => 32
  | .bits64 => 64

/-- Largest value of an `int` (`math.MaxInt`). -/
def maxInt (sz : IntSize) : Int := 2 ^ (sz.bits - 1) - 1

/-- Smallest value of an `int` (`math.MinInt`). -/
def minInt (sz : IntSize) : Int := -(2 ^ (sz.bits - 1))

/-- Two's complement reduction of a mathematical integer to an `int`. -/
def wrapInt (sz : IntSize) (x : Int) : Int :=
  (x - minInt sz) % 2 ^ sz.bits + minInt sz

/-- The statement `x += 1` on an `int` variable holding `x`. -/
def incr (sz : IntSize) (x : Int) : Int := wrapInt sz (x + 1)

/-! ## Objects handed to the handlers -/

/-- The part of `metav1.ObjectMeta` the handlers read. -/
structure ObjectMeta where
  ns : String
  name : String
deriving DecidableEq, Repr

/-- A value passed as `interface{}`, by the dynamic type the type switches
distinguish: a `*corev1.Pod` (a pointer to a Pod, or the nil pointer of that
type), a `*corev1.ConfigMap` (likewise), or a value of any other dynamic type
(the nil interface and a `cache.DeletedFinalStateUnknown` tombstone
included), which the handlers only print with `%#v`; `rendering` is that
text. -/
inductive Obj where
  | pod (m : ObjectMeta)
  | nilPod
  | configMap (m : ObjectMeta)
  | nilConfigMap
  | other (rendering : String)
deriving DecidableEq, Repr

/-- The type assertion `obj.(*corev1.Pod)`: `none` when `obj` has another
dynamic type (the assertion panics), otherwise the pointer, itself `none`
when it is nil. -/
def Obj.assertPod : Obj → Option (Option ObjectMeta)
  | .pod m => some (some m)
  | .nilPod => some none
  | _ => none

/-- The type assertion `obj.(*corev1.ConfigMap)`. -/
def Obj.assertConfigMap : Obj → Option (Option ObjectMeta)
  | .configMap m => some (some m)
  | .nilConfigMap => some none
  | _ => none

/-- The object is a nil pointer of type `*corev1.Pod` or
`*corev1.ConfigMap`: `GetNamespace()` on it panics. -/
def Obj.isNil : Obj → Bool
  | .nilPod => true
  | .nilConfigMap => true
  | _ => false

/-! ## The package-level counters -/

/-- The nine package-level `int` variables of `main.go`, lines 21-33. -/
structure Counters where
  totalPodAddCount : Int
  totalPodUpdateCount : Int
  totalPodDeleteCount : Int
  totalCMAddCount : Int
  totalCMUpdateCount : Int
  totalCMDeleteCount : Int
  totalUnknownAddCount : Int
  totalUnknownUpdateCount : Int
  totalUnknownDeleteCount : Int
deriving DecidableEq, Repr

/-- Initial values of the counters: every one is declared `= 0`. -/
def Counters.initial : Counters :=
  ⟨0, 0, 0, 0, 0, 0, 0, 0, 0⟩

/-- What a handler reads and writes: the counters and standard output. -/
structure World where
  counters : Counters
  stdout : List String
deriving DecidableEq, Repr

/-- The world at program start. -/
def World.initial : World := ⟨Counters.initial, []⟩

/-- The two run-time panics a handler can end in: a failed type assertion
`newObj.(*T)`, and the nil pointer dereference of `GetNamespace()` on a nil
`*corev1.Pod` or `*corev1.ConfigMap`. -/
inductive Panic where
  | typeAssertion
  | nilDereference
deriving DecidableEq, Repr

/-- Result of one handler call: the world it leaves behind and the panic the
call ended in, if any. -/
structure Outcome where
  world : World
  panic : Option Panic
deriving DecidableEq, Repr

/-- The call ended in a panic. -/
def Outcome.panicked (r : Outcome) : Bool := r.panic.isSome

/-- Text of `fmt.Printf("[%d] <what> Namespace: %s | Name: %s\n", n, ns, name)`. -/
def namedLine (n : Int) (what : String) (m : ObjectMeta) : String :=
  "[" ++ toString n ++ "] " ++ what ++ " Namespace: " ++ m.ns ++ " | Name: " ++ m.name ++ "\n"

/-- Text of `fmt.Printf("[%d] <what> Unknown type object: %#v", n, v)`. -/
def unknownLine (n : Int) (what : String) (rendering : String) : String :=
  "[" ++ toString n ++ "] " ++ what ++ " Unknown type object: " ++ rendering

/-! ## The handlers -/

/-- `onAdd(obj interface{})`, `main.go` lines 88-100. The comment above it in
the source speaks of a new Pod only; the function is registered with both
informers and its switch handles every dynamic type. In the Pod and
ConfigMap cases the counter is incremented first; the arguments of `Printf`
are evaluated next, and `v.GetNamespace()` panics when `v` is nil, before
anything is printed. -/
def onAdd (sz : IntSize) (obj : Obj) (w : World) : Outcome :=
  match obj with
  | .pod v =>
    let n := incr sz w.counters.totalPodAddCount
    ⟨⟨{ w.counters with totalPodAddCount := n },
      w.stdout ++ [namedLine n "Added Pod" v]⟩, none⟩
  | .nilPod =>
    let n := incr sz w.counters.totalPodAddCount
    ⟨⟨{ w.counters with totalPodAddCount := n }, w.stdout⟩, some .nilDereference⟩
  | .configMap v =>
    let n := incr sz w.counters.totalCMAddCount
    ⟨⟨{ w.counters with totalCMAddCount := n },
      w.stdout ++ [namedLine n "Added ConfigMap" v]⟩, none⟩
  | .nilConfigMap =>
    let n := incr sz w.counters.totalCMAddCount
    ⟨⟨{ w.counters with totalCMAddCount := n }, w.stdout⟩, some .nilDereference⟩
  | .other v =>
    let n := incr sz w.counters.totalUnknownAddCount
    ⟨⟨{ w.counters with totalUnknownAddCount := n },
      w.stdout ++ [unknownLine n "Added" v]⟩, none⟩

/-- The `case *corev1.Pod` of `onUpdate`, `main.go` lines 106-112, for the
pointer `oldPod` the switch matched. The counter is incremented first;
`oldObj.(*corev1.Pod)` succeeds; `newObj.(*corev1.Pod)` panics when `newObj`
has another dynamic type; the first `Printf` dereferences `oldPod`, the
second, after the first line is out, `newPod`. -/
def onUpdatePod (sz : IntSize) (oldPod : Option ObjectMeta) (newObj : Obj) (w : World) :
    Outcome :=
  let n := incr sz w.counters.totalPodUpdateCount
  let c := { w.counters with totalPodUpdateCount := n }
  match newObj.assertPod with
  | none => ⟨⟨c, w.stdout⟩, some .typeAssertion⟩
  | some newPod =>
    match oldPod with
    | none => ⟨⟨c, w.stdout⟩, some .nilDereference⟩
    | some o =>
      match newPod with
      | none => ⟨⟨c, w.stdout ++ [namedLine n "Updated Old Pod" o]⟩, some .nilDereference⟩
      | some p =>
        ⟨⟨c, w.stdout ++ [namedLine n "Updated Old Pod" o,
                           namedLine n "Updated New Pod" p]⟩, none⟩

/-- The `case *corev1.ConfigMap` of `onUpdate`, `main.go` lines 113-119. -/
def onUpdateConfigMap (sz : IntSize) (oldCM : Option ObjectMeta) (newObj : Obj) (w : World) :
    Outcome :=
  let n := incr sz w.counters.totalCMUpdateCount
  let c := { w.counters with totalCMUpdateCount := n }
  match newObj.assertConfigMap with
  | none => ⟨⟨c, w.stdout⟩, some .typeAssertion⟩
  | some newCM =>
    match oldCM with
    | none => ⟨⟨c, w.stdout⟩, some .nilDereference⟩
    | some o =>
      match newCM with
      | none =>
        ⟨⟨c, w.stdout ++ [namedLine n "Updated Old ConfigMap" o]⟩, some .nilDereference⟩
      | some p =>
        ⟨⟨c, w.stdout ++ [namedLine n "Updated Old ConfigMap" o,
                           namedLine n "Updated New ConfigMap" p]⟩, none⟩

/-- `onUpdate(oldObj, newObj interface{})`, `main.go` lines 104-124. The
switch is on the dynamic type of `oldObj` alone. -/
def onUpdate (sz : IntSize) (oldObj newObj : Obj) (w : World) : Outcome :=
  match oldObj with
  | .pod oldPod => onUpdatePod sz (some oldPod) newObj w
  | .nilPod => onUpdatePod sz none newObj w
  | .configMap oldCM => onUpdateConfigMap sz (some oldCM) newObj w
  | .nilConfigMap => onUpdateConfigMap sz none newObj w
  | .other v =>
    let n := incr sz w.counters.totalUnknownUpdateCount
    ⟨⟨{ w.counters with totalUnknownUpdateCount := n },
      w.stdout ++ [unknownLine n "Updated" v]⟩, none⟩

/-- `onDelete(obj interface{})`, `main.go` lines 128-140. -/
def onDelete (sz : IntSize) (obj : Obj) (w : World) : Outcome :=
  match obj with
  | .pod v =>
    let n := incr sz w.counters.totalPodDeleteCount
    ⟨⟨{ w.counters with totalPodDeleteCount := n },
      w.stdout ++ [namedLine n "Deleted Pod" v]⟩, none⟩
  | .nilPod =>
    let n := incr sz w.counters.totalPodDeleteCount
    ⟨⟨{ w.counters with totalPodDeleteCount := n }, w.stdout⟩, some .nilDereference⟩
  | .configMap v =>
    let n := incr sz w.counters.totalCMDeleteCount
    ⟨⟨{ w.counters with totalCMDeleteCount := n },
      w.stdout ++ [namedLine n "Deleted ConfigMap" v]⟩, none⟩
  | .nilConfigMap =>
    let n := incr sz w.counters.totalCMDeleteCount
    ⟨⟨{ w.counters with totalCMDeleteCount := n }, w.stdout⟩, some .nilDereference⟩
  | .other v =>
    let n := incr sz w.counters.totalUnknownDeleteCount
    ⟨⟨{ w.counters with totalUnknownDeleteCount := n },
      w.stdout ++ [unknownLine n "Deleted" v]⟩, none⟩

/-! ## Notifications and their sequential delivery -/

/-- A notification an informer delivers to its registered
`cache.ResourceEventHandlerFuncs{AddFunc, UpdateFunc, DeleteFunc}`. -/
inductive Notification where
  | add (obj : Obj)
  | update (oldObj newObj : Obj)
  | delete (obj : Obj)
deriving DecidableEq, Repr

/-- The handler registered for each notification (`main.go` lines 65-69 and
77-81): `AddFunc: onAdd, UpdateFunc: onUpdate, DeleteFunc: onDelete`. -/
def deliver (sz : IntSize) (n : Notification) (w : World) : Outcome :=
  match n with
  | .add obj => onAdd sz obj w
  | .update oldObj newObj => onUpdate sz oldObj newObj w
  | .delete obj => onDelete sz obj w

/-- Notifications handled one after another; a panicking handler ends the
run (the panic is not recovered by the handlers). -/
def run (sz : IntSize) : List Notification → World → Outcome
  | [], w => ⟨w, none⟩
  | n :: rest, w =>
    let r := deliver sz n w
    if r.panicked then r else run sz rest r.world

/-! ## Vocabulary of the claims -/

/-- Kind of an object as the type switches classify it. -/
inductive Kind where
  | pod
  | configMap
  | unknown
deriving DecidableEq, Repr

/-- The three notification types. -/
inductive EventType where
  | add
  | update
  | delete
deriving DecidableEq, Repr

/-- Kind of an object: its dynamic type. -/
def Obj.kind : Obj → Kind
  | .pod _ => .pod
  | .nilPod => .pod
  | .configMap _ => .configMap
  | .nilConfigMap => .configMap
  | .other _ => .unknown

/-- Event type of a notification. -/
def Notification.eventType : Notification → EventType
  | .add _ => .add
  | .update _ _ => .update
  | .delete _ => .delete

/-- The object that selects the counter: the object itself, the old object
for an Update. -/
def Notification.subject : Notification → Obj
  | .add obj => obj
  | .update oldObj _ => oldObj
  | .delete obj => obj

/-- The counter `total<Kind><Event>Count`. -/
def Counters.get (c : Counters) : Kind → EventType → Int
  | .pod, .add => c.totalPodAddCount
  | .pod, .update => c.totalPodUpdateCount
  | .pod, .delete => c.totalPodDeleteCount
  | .configMap, .add => c.totalCMAddCount
  | .configMap, .update => c.totalCMUpdateCount
  | .configMap, .delete => c.totalCMDeleteCount
  | .unknown, .add => c.totalUnknownAddCount
  | .unknown, .update => c.totalUnknownUpdateCount
  | .unknown, .delete => c.totalUnknownDeleteCount

/-- Whether a notification is of event type `e` on an object of kind `k`. -/
def Notification.isOf (k : Kind) (e : EventType) (n : Notification) : Bool :=
  decide (n.eventType = e) && decide (n.subject.kind = k)

/-- Number of notifications of event type `e` on objects of kind `k`. -/
def occurrences (k : Kind) (e : EventType) (ns : List Notification) : Nat :=
  ns.countP (Notification.isOf k e)

/-- An Update carries an old and a new object of the same kind. -/
def Notification.sameKind : Notification → Bool
  | .update oldObj newObj => decide (oldObj.kind = newObj.kind)
  | _ => true

/-- No object of the notification is a nil pointer. -/
def Notification.nonNil : Notification → Bool
  | .add obj => !obj.isNil
  | .update oldObj newObj => !oldObj.isNil && !newObj.isNil
  | .delete obj => !obj.isNil

/-- The Pod `default/foo` of the spec's scenario. -/
def podFoo : Obj := .pod ⟨"default", "foo"⟩

/-- A ConfigMap `default/bar`. -/
def cmBar : Obj := .configMap ⟨"default", "bar"⟩

/-- The spec's scenario: Add, Update, Delete of Pod `default/foo`. -/
def scenarioPodFoo : List Notification :=
  [.add podFoo, .update podFoo podFoo, .delete podFoo]


/-! ## The keyed store of the informers -/

/-- Modelled from the spec: the key of a store entry, "ResourceKey:
`(kind, namespace, name)` tuple"; the store and its keys belong to the
informer library, not to `main.go`. -/
structure ResourceKey where
  kind : Kind
  ns : String
  name : String
deriving DecidableEq, Repr

/-- Key of a Pod or a ConfigMap; a nil pointer and an object of another type
have none. -/
def Obj.key : Obj → Option ResourceKey
  | .pod m => some ⟨.pod, m.ns, m.name⟩
  | .configMap m => some ⟨.configMap, m.ns, m.name⟩
  | _ => none

/-- Modelled from the spec: the Store lives in the informer library, not in
`main.go`. It is "mapping ResourceKey → ResourceObject", a finite map with one
entry per key. -/
abbrev Store := AList (fun _ : ResourceKey => Obj)

/-- Modelled from the spec: "Apply to Store: Add/Update → insert/replace entry
at key; Delete → remove entry at key (absence is not an error — treat as
no-op)". The store mutation of the informer library is not in `main.go`. -/
def Store.apply (s : Store) : Notification → Store
  | .add obj =>
    match obj.key with
    | some k => s.insert k obj
    | none => s
  | .update _ newObj =>
    match newObj.key with
    | some k => s.insert k newObj
    | none => s
  | .delete obj =>
    match obj.key with
    | some k => s.erase k
    | none => s

/-- The store after a sequence of notifications. -/
def Store.replay (s : Store) (ns : List Notification) : Store :=
  ns.foldl Store.apply s

/-- Number of keys of the given kind present in the store. -/
def Store.countKind (s : Store) (kind : Kind) : Nat :=
  s.keys.countP (fun k => decide (k.kind = kind))

/-- One step of a valid history of the store: an Add only for a Pod or
ConfigMap whose key is absent, an Update only from and to a Pod or ConfigMap
of one key that is present, a Delete only for a Pod or ConfigMap whose key is
present. -/
def validStep (s : Store) : Notification → Bool
  | .add obj =>
    match obj.key with
    | some k => decide (k ∉ s)
    | none => false
  | .update oldObj newObj =>
    match oldObj.key, newObj.key with
    | some k, some k₂ => decide (k = k₂) && decide (k ∈ s)
    | _, _ => false
  | .delete obj =>
    match obj.key with
    | some k => decide (k ∈ s)
    | none => false

/-- A sequence of notifications that is a valid history of the store `s`. -/
def validHistory : Store → List Notification → Bool
  | _, [] => true
  | s, n :: rest => validStep s n && validHistory (s.apply n) rest

/-- A short valid history: Pod `default/foo` added, ConfigMap `default/bar`
added, the Pod updated, the ConfigMap deleted. -/
def historyFooBar : List Notification :=
  [.add podFoo, .add cmBar, .update podFoo podFoo, .delete cmBar]

/-- A history that deletes and re-adds Pod `default/foo` `n` times. -/
def churn : Nat → List Notification
  | 0 => []
  | n + 1 => .delete podFoo :: .add podFoo :: churn n


/-! ## Control flow of `main` -/

/-- The two informers `main` creates. -/
inductive InformerId where
  | pods
  | configMaps
deriving DecidableEq, Repr

/-- The calls `main`, `AddPodInformer` and `AddConfigMapInformer` make into
their libraries, in program order. -/
inductive Effect where
  | logPrint (msg : String)
  | getenv (name : String)
  | buildConfigFromFlags (masterUrl kubeconfigPath : String)
  | logPanic (msg : String)
  | newForConfig
  | makeStopper
  | newSharedInformerFactory (resync : Nat)
  | addEventHandler (i : InformerId)
  | goRun (i : InformerId)
  | waitForCacheSync (hasSynced : List InformerId)
  | handleError (msg : String)
  | receiveStopper
  | closeStopper
  | handleCrash
deriving DecidableEq, Repr

/-- How an execution of `main` ends: it returns, it panics, or it stays
blocked in `<-stopper`, which no statement of the program closes or sends on
before `main` returns. -/
inductive Exit where
  | returned
  | panicked
  | waitingOnStopper
deriving DecidableEq, Repr

/-- What the environment answers to `main`: the value of `KUBECONFIG`, the
errors of `clientcmd.BuildConfigFromFlags` and `kubernetes.NewForConfig`
(`none` for `err == nil`), and the result of `cache.WaitForCacheSync`. -/
structure Env where
  kubeconfig : String
  buildConfigErr : Option String
  newForConfigErr : Option String
  cacheSynced : Bool
deriving DecidableEq, Repr

/-- `AddPodInformer`, `main.go` lines 62-72: a factory with resync period 0,
the Pod informer, the three handlers registered, `go informer.Run(stopper)`;
returns the informer. -/
def AddPodInformer : List Effect × InformerId :=
  ([.newSharedInformerFactory 0, .addEventHandler .pods, .goRun .pods], .pods)

/-- `AddConfigMapInformer`, `main.go` lines 74-84. -/
def AddConfigMapInformer : List Effect × InformerId :=
  ([.newSharedInformerFactory 0, .addEventHandler .configMaps, .goRun .configMaps],
    .configMaps)

/-- `main`, `main.go` lines 35-60. The two deferred calls run, last deferred
first, when `main` returns after the failed barrier; the two `log.Panic`
calls come before any `defer`. -/
def main (env : Env) : List Effect × Exit :=
  let start : List Effect :=
    [.logPrint "Shared Informer app started", .getenv "KUBECONFIG",
      .buildConfigFromFlags "" env.kubeconfig]
  match env.buildConfigErr with
  | some err => (start ++ [.logPanic err], .panicked)
  | none =>
    match env.newForConfigErr with
    | some err => (start ++ [.newForConfig, .logPanic err], .panicked)
    | none =>
      let podInformer := AddPodInformer
      let configMapInformer := AddConfigMapInformer
      let upToBarrier : List Effect :=
        start ++ [.newForConfig, .makeStopper] ++ podInformer.1 ++ configMapInformer.1 ++
          [.waitForCacheSync [podInformer.2, configMapInformer.2]]
      if !env.cacheSynced then
        (upToBarrier ++
          [.handleError "Timed out waiting for caches to sync", .closeStopper, .handleCrash],
          .returned)
      else
        (upToBarrier ++ [.receiveStopper], .waitingOnStopper)

/-- The informers started (`go informer.Run`) in a trace, in order. -/
def started : List Effect → List InformerId
  | [] => []
  | .goRun i :: rest => i :: started rest
  | _ :: rest => started rest


/-! ## Two informers delivering Adds concurrently

Each informer calls its handlers one after another from a goroutine of its
own (`go informer.Run(stopper)`), so two calls of `onAdd` can overlap. A call
is split at its accesses to shared memory: the read and the write of the
counter in `total…AddCount += 1`, and the `fmt.Printf`, which reads the
counter again. The goroutines interleave at these steps in any order. -/

/-- Assignment to the counter `total<Kind><Event>Count`. -/
def Counters.set (c : Counters) (k : Kind) (e : EventType) (v : Int) : Counters :=
  match k, e with
  | .pod, .add => { c with totalPodAddCount := v }
  | .pod, .update => { c with totalPodUpdateCount := v }
  | .pod, .delete => { c with totalPodDeleteCount := v }
  | .configMap, .add => { c with totalCMAddCount := v }
  | .configMap, .update => { c with totalCMUpdateCount := v }
  | .configMap, .delete => { c with totalCMDeleteCount := v }
  | .unknown, .add => { c with totalUnknownAddCount := v }
  | .unknown, .update => { c with totalUnknownUpdateCount := v }
  | .unknown, .delete => { c with totalUnknownDeleteCount := v }

/-- The line `onAdd` prints for an object once it has read the counter;
`none` when evaluating the arguments of `Printf` panics on a nil pointer. -/
def addedLine (obj : Obj) (n : Int) : Option String :=
  match obj with
  | .pod v => some (namedLine n "Added Pod" v)
  | .nilPod => none
  | .configMap v => some (namedLine n "Added ConfigMap" v)
  | .nilConfigMap => none
  | .other v => some (unknownLine n "Added" v)

/-- Where a goroutine stands inside `onAdd(obj)`: between two calls; after
the read of the counter selected by the type switch, holding the value read;
after the write of the incremented value, before the `Printf`; or stopped by
a panic. -/
inductive Phase where
  | idle
  | loaded (obj : Obj) (reg : Int)
  | stored (obj : Obj)
  | panicked
deriving DecidableEq, Repr

/-- The goroutine that delivers one informer's Add notifications: the
objects still to deliver and the position inside the current `onAdd`. -/
structure Goroutine where
  pending : List Obj
  phase : Phase
deriving DecidableEq, Repr

/-- A goroutine has drained: nothing pending and no call in progress. -/
def Goroutine.done (g : Goroutine) : Bool :=
  decide (g.pending = []) && decide (g.phase = .idle)

/-- One step of a goroutine on the shared world. A drained goroutine and a
goroutine that has panicked do nothing. -/
def Goroutine.step (sz : IntSize) (g : Goroutine) (w : World) : Goroutine × World :=
  match g.phase with
  | .idle =>
    match g.pending with
    | [] => (g, w)
    | obj :: rest => (⟨rest, .loaded obj (w.counters.get obj.kind .add)⟩, w)
  | .loaded obj reg =>
    (⟨g.pending, .stored obj⟩, ⟨w.counters.set obj.kind .add (incr sz reg), w.stdout⟩)
  | .stored obj =>
    match addedLine obj (w.counters.get obj.kind .add) with
    | some line => (⟨g.pending, .idle⟩, ⟨w.counters, w.stdout ++ [line]⟩)
    | none => (⟨g.pending, .panicked⟩, w)
  | .panicked => (g, w)

/-- The two handler goroutines and the memory they share. -/
structure System where
  podInformer : Goroutine
  cmInformer : Goroutine
  world : World
deriving DecidableEq, Repr

/-- Which goroutine takes the next step. -/
inductive Turn where
  | podInformer
  | cmInformer
deriving DecidableEq, Repr

/-- A goroutine has panicked: the panic is not recovered and ends the whole
program. -/
def System.crashed (s : System) : Bool :=
  decide (s.podInformer.phase = .panicked) || decide (s.cmInformer.phase = .panicked)

/-- One step of the system: the chosen goroutine moves, unless the program
has crashed. -/
def System.step (sz : IntSize) (s : System) (t : Turn) : System :=
  if s.crashed then s
  else
    match t with
    | .podInformer =>
      let r := s.podInformer.step sz s.world
      ⟨r.1, s.cmInformer, r.2⟩
    | .cmInformer =>
      let r := s.cmInformer.step sz s.world
      ⟨s.podInformer, r.1, r.2⟩

/-- The system after a schedule, an arbitrary interleaving of the two
goroutines. -/
def System.exec (sz : IntSize) (s : System) (schedule : List Turn) : System :=
  schedule.foldl (System.step sz) s

/-- Program start with the Add notifications each informer will deliver. -/
def System.start (podAdds cmAdds : List Obj) : System :=
  ⟨⟨podAdds, .idle⟩, ⟨cmAdds, .idle⟩, World.initial⟩

/-- Steps a goroutine still has to take: three per pending object, fewer for
the call in progress. -/
def Goroutine.remaining (g : Goroutine) : Nat :=
  3 * g.pending.length +
    match g.phase with
    | .idle => 0
    | .loaded _ _ => 2
    | .stored _ => 1
    | .panicked => 0

/-- What holds of a goroutine that delivers `total` Adds of non-nil objects
of kind `k`, and of the counter of that kind, as long as no other goroutine
writes that counter: the counter plus the Adds not yet counted is `total`, a
value read is still the counter's value, and the goroutine has not
panicked. -/
def Goroutine.Inv (k : Kind) (total : Nat) (g : Goroutine) (c : Counters) : Prop :=
  (∀ o ∈ g.pending, o.kind = k ∧ o.isNil = false) ∧
  0 ≤ c.get k .add ∧
  match g.phase with
  | .idle => c.get k .add + g.pending.length = total
  | .loaded obj reg =>
    (obj.kind = k ∧ obj.isNil = false) ∧ reg = c.get k .add ∧
      c.get k .add + g.pending.length + 1 = total
  | .stored obj => (obj.kind = k ∧ obj.isNil = false) ∧ c.get k .add + g.pending.length = total
  | .panicked => False

/-- Invariant of the system in which the Pod informer delivers `nPods` Pod
Adds and the ConfigMap informer `nCMs` ConfigMap Adds. -/
def System.Inv (nPods nCMs : Nat) (s : System) : Prop :=
  s.podInformer.Inv .pod nPods s.world.counters ∧
  s.cmInformer.Inv .configMap nCMs s.world.counters ∧
  ∀ k e, ¬ (e = .add ∧ (k = .pod ∨ k = .configMap)) → s.world.counters.get k e = 0


/-! ## Arithmetic of `int` -/

theorem wrapInt_of_inRange (sz : IntSize) (x : Int)
    (hlo : minInt sz ≤ x) (hhi : x ≤ maxInt sz) : wrapInt sz x = x := by
  cases sz <;> simp only [wrapInt, minInt, maxInt, IntSize.bits] at * <;> norm_num at * <;> omega

theorem wrapInt_wrapInt_add (sz : IntSize) (a b : Int) :
    wrapInt sz (wrapInt sz a + b) = wrapInt sz (a + b) := by
  cases sz <;> simp only [wrapInt, minInt, IntSize.bits] <;> norm_num <;> omega

theorem wrapInt_inRange (sz : IntSize) (x : Int) :
    minInt sz ≤ wrapInt sz x ∧ wrapInt sz x ≤ maxInt sz := by
  cases sz <;> simp only [wrapInt, minInt, maxInt, IntSize.bits] <;> norm_num <;> omega

theorem minInt_neg (sz : IntSize) : minInt sz < 0 := by
  cases sz <;> simp [minInt, IntSize.bits]

theorem maxInt_large (sz : IntSize) : 1000 < maxInt sz := by
  cases sz <;> simp [maxInt, IntSize.bits]

theorem incr_of_lt (sz : IntSize) (x : Int)
    (hlo : minInt sz ≤ x) (hhi : x < maxInt sz) : incr sz x = x + 1 := by
  unfold incr
  apply wrapInt_of_inRange <;> omega

/-- Repeating `+= 1` from a value in range adds the number of repetitions
modulo the width. -/
theorem iterate_incr (sz : IntSize) (n : Nat) (x : Int)
    (hlo : minInt sz ≤ x) (hhi : x ≤ maxInt sz) :
    (incr sz)^[n] x = wrapInt sz (x + n) := by
  induction n with
  | zero => simp [wrapInt_of_inRange sz x hlo hhi]
  | succ k ih =>
    rw [Function.iterate_succ_apply', ih, incr, wrapInt_wrapInt_add]
    congr 1
    push_cast
    ring

/-! ## One notification -/

theorem Counters.ext_get {c d : Counters} (h : ∀ k e, c.get k e = d.get k e) : c = d := by
  cases c
  cases d
  have h1 := h .pod .add
  have h2 := h .pod .update
  have h3 := h .pod .delete
  have h4 := h .configMap .add
  have h5 := h .configMap .update
  have h6 := h .configMap .delete
  have h7 := h .unknown .add
  have h8 := h .unknown .update
  have h9 := h .unknown .delete
  simp only [Counters.get] at h1 h2 h3 h4 h5 h6 h7 h8 h9
  simp [h1, h2, h3, h4, h5, h6, h7, h8, h9]

/-- Effect of one handler call on each counter, whether or not it panics. -/
theorem deliver_get (sz : IntSize) (n : Notification) (w : World) (k : Kind) (e : EventType) :
    (deliver sz n w).world.counters.get k e =
      if n.isOf k e = true then incr sz (w.counters.get k e) else w.counters.get k e := by
  rcases n with o | ⟨o, o'⟩ | o
  · cases o <;> cases k <;> cases e <;>
      simp [deliver, onAdd, Counters.get, Notification.isOf, Notification.eventType,
        Notification.subject, Obj.kind]
  · cases o <;> cases o' <;> cases k <;> cases e <;>
      simp [deliver, onUpdate, onUpdatePod, onUpdateConfigMap, Obj.assertPod,
        Obj.assertConfigMap, Counters.get, Notification.isOf, Notification.eventType,
        Notification.subject, Obj.kind]
  · cases o <;> cases k <;> cases e <;>
      simp [deliver, onDelete, Counters.get, Notification.isOf, Notification.eventType,
        Notification.subject, Obj.kind]

theorem isOf_iff (k : Kind) (e : EventType) (n : Notification) :
    n.isOf k e = true ↔ n.subject.kind = k ∧ n.eventType = e := by
  simp [Notification.isOf, and_comm]

/-- One handler call adds exactly 1 to the counter it addresses, when that
counter is an `int` below the largest `int`, and changes no other counter. -/
theorem deliver_get_exact (sz : IntSize) (n : Notification) (w : World)
    (hlo : minInt sz ≤ w.counters.get n.subject.kind n.eventType)
    (hhi : w.counters.get n.subject.kind n.eventType < maxInt sz) (k : Kind) (e : EventType) :
    (deliver sz n w).world.counters.get k e =
      if k = n.subject.kind ∧ e = n.eventType then w.counters.get k e + 1
      else w.counters.get k e := by
  rw [deliver_get]
  by_cases h : k = n.subject.kind ∧ e = n.eventType
  · obtain ⟨rfl, rfl⟩ := h
    have hof : n.isOf n.subject.kind n.eventType = true := (isOf_iff _ _ n).2 ⟨rfl, rfl⟩
    rw [if_pos hof, if_pos ⟨rfl, rfl⟩, incr_of_lt sz _ hlo hhi]
  · have hof : ¬ n.isOf k e = true := fun hc =>
      h ⟨((isOf_iff k e n).1 hc).1.symm, ((isOf_iff k e n).1 hc).2.symm⟩
    rw [if_neg hof, if_neg h]

/-- `onUpdate` ends in a failed type assertion exactly when `newObj` does not
have the dynamic type the switch matched on `oldObj`. -/
theorem onUpdate_typeAssertion_iff (sz : IntSize) (oldObj newObj : Obj) (w : World) :
    (onUpdate sz oldObj newObj w).panic = some .typeAssertion ↔
      (oldObj.kind = .pod ∧ newObj.kind ≠ .pod) ∨
      (oldObj.kind = .configMap ∧ newObj.kind ≠ .configMap) := by
  cases oldObj <;> cases newObj <;>
    simp [onUpdate, onUpdatePod, onUpdateConfigMap, Obj.assertPod, Obj.assertConfigMap, Obj.kind]

/-- `onUpdate` ends without a panic when both objects are non-nil and of the
same kind. -/
theorem onUpdate_panic_none (sz : IntSize) (oldObj newObj : Obj) (w : World)
    (hkind : oldObj.kind = newObj.kind) (hold : oldObj.isNil = false)
    (hnew : newObj.isNil = false) : (onUpdate sz oldObj newObj w).panic = none := by
  cases oldObj <;> cases newObj <;>
    simp_all [onUpdate, onUpdatePod, onUpdateConfigMap, Obj.assertPod, Obj.assertConfigMap,
      Obj.kind, Obj.isNil]

/-- `onAdd` panics exactly on a nil pointer, and then on its dereference. -/
theorem onAdd_panic (sz : IntSize) (obj : Obj) (w : World) :
    (onAdd sz obj w).panic = if obj.isNil = true then some .nilDereference else none := by
  cases obj <;> rfl

/-- `onDelete` panics exactly on a nil pointer, and then on its dereference. -/
theorem onDelete_panic (sz : IntSize) (obj : Obj) (w : World) :
    (onDelete sz obj w).panic = if obj.isNil = true then some .nilDereference else none := by
  cases obj <;> rfl

theorem panicked_of_panic_none {r : Outcome} (h : r.panic = none) : r.panicked = false := by
  simp [Outcome.panicked, h]

/-- A notification with non-nil objects, of the same kind for an Update, is
handled without a panic. -/
theorem deliver_panicked_of_sameKind (sz : IntSize) (n : Notification) (w : World)
    (h : n.sameKind = true) (hnil : n.nonNil = true) : (deliver sz n w).panicked = false := by
  apply panicked_of_panic_none
  rcases n with o | ⟨o, o'⟩ | o
  · have ho : o.isNil = false := by simpa [Notification.nonNil] using hnil
    simp [deliver, onAdd_panic, ho]
  · have ho : o.isNil = false ∧ o'.isNil = false := by simpa [Notification.nonNil] using hnil
    have hk : o.kind = o'.kind := by simpa [Notification.sameKind] using h
    exact onUpdate_panic_none sz o o' w hk ho.1 ho.2
  · have ho : o.isNil = false := by simpa [Notification.nonNil] using hnil
    simp [deliver, onDelete_panic, ho]

/-! ## Sequences of notifications -/

theorem run_cons_of_ok (sz : IntSize) (n : Notification) (rest : List Notification) (w : World)
    (h : (deliver sz n w).panicked = false) :
    run sz (n :: rest) w = run sz rest (deliver sz n w).world := by
  simp [run, h]

/-- A counter no notification of the sequence addresses keeps its value, even
when the run ends in a panic. -/
theorem run_get_untouched (sz : IntSize) (k : Kind) (e : EventType) (ns : List Notification) :
    ∀ w : World, (∀ n ∈ ns, n.isOf k e = false) →
      (run sz ns w).world.counters.get k e = w.counters.get k e := by
  induction ns with
  | nil => intro w _; rfl
  | cons n rest ih =>
    intro w h
    have hn : n.isOf k e = false := h n (List.mem_cons_self _ _)
    have hstep : (deliver sz n w).world.counters.get k e = w.counters.get k e := by
      rw [deliver_get, hn]; simp
    by_cases hp : (deliver sz n w).panicked = true
    · simp [run, hp, hstep]
    · have hp' : (deliver sz n w).panicked = false := by simpa using hp
      rw [run_cons_of_ok sz n rest w hp', ih _ (fun m hm => h m (List.mem_cons_of_mem _ hm)), hstep]

/-- With non-nil objects and same-kind Updates the run never panics and each
counter has been incremented once per notification that addresses it. -/
theorem run_get (sz : IntSize) (ns : List Notification) :
    ∀ w : World, ns.all Notification.sameKind = true → ns.all Notification.nonNil = true →
      (run sz ns w).panicked = false ∧
      ∀ k e, (run sz ns w).world.counters.get k e =
        (incr sz)^[occurrences k e ns] (w.counters.get k e) := by
  induction ns with
  | nil => intro w _ _; exact ⟨rfl, fun k e => rfl⟩
  | cons n rest ih =>
    intro w h hnil
    simp only [List.all_cons, Bool.and_eq_true] at h hnil
    have hp := deliver_panicked_of_sameKind sz n w h.1 hnil.1
    rw [run_cons_of_ok sz n rest w hp]
    refine ⟨(ih _ h.2 hnil.2).1, fun k e => ?_⟩
    rw [(ih _ h.2 hnil.2).2 k e, deliver_get]
    unfold occurrences
    rw [List.countP_cons]
    by_cases hn : n.isOf k e = true
    · simp [hn, Function.iterate_succ_apply]
    · simp [hn]

theorem Counters.initial_get (k : Kind) (e : EventType) : World.initial.counters.get k e = 0 := by
  cases k <;> cases e <;> rfl

/-- From zero counters, with non-nil objects and same-kind Updates, each
counter ends at the number of notifications that address it, reduced to the
range of `int`. -/
theorem run_initial_get (sz : IntSize) (ns : List Notification)
    (hkind : ns.all Notification.sameKind = true) (hnil : ns.all Notification.nonNil = true)
    (k : Kind) (e : EventType) :
    (run sz ns World.initial).world.counters.get k e = wrapInt sz (occurrences k e ns) := by
  rw [(run_get sz ns World.initial hkind hnil).2 k e, Counters.initial_get,
    iterate_incr sz _ 0 (le_of_lt (minInt_neg sz)) (by have := maxInt_large sz; omega)]
  simp

theorem replicate_add_sameKind (obj : Obj) (n : Nat) :
    (List.replicate n (Notification.add obj)).all Notification.sameKind = true := by
  rw [List.all_eq_true]
  intro x hx
  rw [List.eq_of_mem_replicate hx]
  rfl

theorem replicate_add_podFoo_nonNil (n : Nat) :
    (List.replicate n (Notification.add podFoo)).all Notification.nonNil = true := by
  rw [List.all_eq_true]
  intro x hx
  rw [List.eq_of_mem_replicate hx]
  rfl


/-! ## Store and counters -/

theorem wrapInt_sub (sz : IntSize) (a b : Int) :
    wrapInt sz (wrapInt sz a - wrapInt sz b) = wrapInt sz (a - b) := by
  cases sz <;> simp only [wrapInt, minInt, IntSize.bits] <;> norm_num <;> omega

theorem Obj.key_kind {obj : Obj} {k : ResourceKey} (h : obj.key = some k) :
    k.kind = obj.kind := by
  cases obj <;> simp [Obj.key] at h <;> subst h <;> rfl

theorem countKind_insert_new (s : Store) (k : ResourceKey) (o : Obj) (kind : Kind)
    (h : k ∉ s) :
    Store.countKind (s.insert k o) kind = s.countKind kind + if k.kind = kind then 1 else 0 := by
  unfold Store.countKind
  rw [AList.keys_insert, List.erase_of_not_mem (AList.mem_keys.not.1 h), List.countP_cons]
  simp

theorem countKind_insert_old (s : Store) (k : ResourceKey) (o : Obj) (kind : Kind)
    (h : k ∈ s) : Store.countKind (s.insert k o) kind = s.countKind kind := by
  unfold Store.countKind
  rw [AList.keys_insert]
  exact ((List.perm_cons_erase (AList.mem_keys.1 h)).countP_eq _).symm

theorem countKind_erase (s : Store) (k : ResourceKey) (kind : Kind) (h : k ∈ s) :
    Store.countKind (s.erase k) kind + (if k.kind = kind then 1 else 0) = s.countKind kind := by
  unfold Store.countKind
  rw [AList.keys_erase, (List.perm_cons_erase (AList.mem_keys.1 h)).countP_eq, List.countP_cons]
  simp

theorem occurrences_singleton (k : Kind) (e : EventType) (n : Notification) :
    occurrences k e [n] = if n.subject.kind = k ∧ n.eventType = e then 1 else 0 := by
  unfold occurrences
  rw [List.countP_cons, List.countP_nil]
  by_cases h : n.isOf k e = true
  · rw [if_pos h, if_pos ((isOf_iff k e n).1 h)]
  · rw [if_neg h, if_neg (fun hc => h ((isOf_iff k e n).2 hc))]

theorem validStep_sameKind (s : Store) (n : Notification) (h : validStep s n = true) :
    n.sameKind = true := by
  rcases n with o | ⟨o, o'⟩ | o
  · rfl
  · cases o <;> cases o' <;> simp_all [validStep, Obj.key, Notification.sameKind, Obj.kind]
  · rfl

/-- A step of a valid history carries keyed objects, none of them a nil
pointer. -/
theorem validStep_nonNil (s : Store) (n : Notification) (h : validStep s n = true) :
    n.nonNil = true := by
  rcases n with o | ⟨o, o'⟩ | o
  · cases o <;> simp_all [validStep, Obj.key, Notification.nonNil, Obj.isNil]
  · cases o <;> cases o' <;> simp_all [validStep, Obj.key, Notification.nonNil, Obj.isNil]
  · cases o <;> simp_all [validStep, Obj.key, Notification.nonNil, Obj.isNil]

theorem validHistory_nonNil (ns : List Notification) :
    ∀ s : Store, validHistory s ns = true → ns.all Notification.nonNil = true := by
  induction ns with
  | nil => intro _ _; rfl
  | cons n rest ih =>
    intro s h
    simp only [validHistory, Bool.and_eq_true] at h
    simp only [List.all_cons, Bool.and_eq_true]
    exact ⟨validStep_nonNil s n h.1, ih _ h.2⟩

theorem validHistory_sameKind (ns : List Notification) :
    ∀ s : Store, validHistory s ns = true → ns.all Notification.sameKind = true := by
  induction ns with
  | nil => intro _ _; rfl
  | cons n rest ih =>
    intro s h
    simp only [validHistory, Bool.and_eq_true] at h
    simp only [List.all_cons, Bool.and_eq_true]
    exact ⟨validStep_sameKind s n h.1, ih _ h.2⟩

/-- One valid step moves the number of keys of a kind by the Adds minus the
Deletes of that kind. -/
theorem validStep_balance (s : Store) (n : Notification) (kind : Kind)
    (h : validStep s n = true) :
    (s.apply n).countKind kind + occurrences kind .delete [n]
      = s.countKind kind + occurrences kind .add [n] := by
  rcases n with o | ⟨o, o'⟩ | o
  · cases hk : o.key with
    | none => simp [validStep, hk] at h
    | some k =>
      simp only [validStep, hk, decide_eq_true_eq] at h
      simp only [Store.apply, hk]
      rw [countKind_insert_new s k o kind h, Obj.key_kind hk, occurrences_singleton,
        occurrences_singleton]
      simp [Notification.eventType, Notification.subject]
  · cases hk : o.key with
    | none => simp [validStep, hk] at h
    | some k =>
      cases hk' : o'.key with
      | none => simp [validStep, hk, hk'] at h
      | some k' =>
        simp only [validStep, hk, hk', Bool.and_eq_true, decide_eq_true_eq] at h
        simp only [Store.apply, hk']
        rw [countKind_insert_old s k' o' kind (h.1 ▸ h.2), occurrences_singleton,
          occurrences_singleton]
        simp [Notification.eventType]
  · cases hk : o.key with
    | none => simp [validStep, hk] at h
    | some k =>
      simp only [validStep, hk, decide_eq_true_eq] at h
      simp only [Store.apply, hk]
      rw [← countKind_erase s k kind h, Obj.key_kind hk, occurrences_singleton,
        occurrences_singleton]
      simp [Notification.eventType, Notification.subject]

theorem occurrences_cons (k : Kind) (e : EventType) (n : Notification)
    (rest : List Notification) :
    occurrences k e (n :: rest) = occurrences k e [n] + occurrences k e rest := by
  unfold occurrences
  simp only [List.countP_cons, List.countP_nil]
  omega

/-- Along a valid history the keys of a kind grow by the Adds and shrink by
the Deletes of that kind. -/
theorem validHistory_balance (kind : Kind) (ns : List Notification) :
    ∀ s : Store, validHistory s ns = true →
      (s.replay ns).countKind kind + occurrences kind .delete ns
        = s.countKind kind + occurrences kind .add ns := by
  induction ns with
  | nil => intro s _; simp [Store.replay, occurrences]
  | cons n rest ih =>
    intro s h
    simp only [validHistory, Bool.and_eq_true] at h
    have h1 := validStep_balance s n kind h.1
    have h2 := ih _ h.2
    rw [occurrences_cons kind .delete, occurrences_cons kind .add]
    have h3 : s.replay (n :: rest) = (s.apply n).replay rest := rfl
    rw [h3]
    omega

theorem countKind_empty (kind : Kind) : (∅ : Store).countKind kind = 0 := by
  simp [Store.countKind]


/-- From zero counters and the empty store, along a valid history: no panic,
each counter is the wrapped count, and the keys of a kind are the Adds minus
the Deletes of that kind. -/
theorem validHistory_facts (sz : IntSize) (ns : List Notification)
    (hvalid : validHistory ∅ ns = true) (kind : Kind) :
    (run sz ns World.initial).panicked = false ∧
    (∀ e, (run sz ns World.initial).world.counters.get kind e
      = wrapInt sz (occurrences kind e ns)) ∧
    Store.countKind (Store.replay ∅ ns) kind + occurrences kind .delete ns
      = occurrences kind .add ns := by
  have hkind := validHistory_sameKind ns ∅ hvalid
  have hnil := validHistory_nonNil ns ∅ hvalid
  refine ⟨(run_get sz ns World.initial hkind hnil).1,
    fun e => run_initial_get sz ns hkind hnil kind e, ?_⟩
  have h := validHistory_balance kind ns ∅ hvalid
  rw [countKind_empty] at h
  omega

/-- The balance of a kind along a valid history, in the two forms of the
amended C2. -/
theorem validHistory_counters (sz : IntSize) (ns : List Notification)
    (hvalid : validHistory ∅ ns = true) (kind : Kind) :
    wrapInt sz ((run sz ns World.initial).world.counters.get kind .add
        - (run sz ns World.initial).world.counters.get kind .delete)
      = wrapInt sz (Store.countKind (Store.replay ∅ ns) kind) ∧
    ((occurrences kind .add ns : Int) ≤ maxInt sz →
      (run sz ns World.initial).world.counters.get kind .add
        - (run sz ns World.initial).world.counters.get kind .delete
      = Store.countKind (Store.replay ∅ ns) kind) := by
  obtain ⟨_, hget, hbal⟩ := validHistory_facts sz ns hvalid kind
  have hcount : (Store.countKind (Store.replay ∅ ns) kind : Int)
      = (occurrences kind .add ns : Int) - (occurrences kind .delete ns : Int) := by
    omega
  refine ⟨?_, fun hle => ?_⟩
  · rw [hget, hget, wrapInt_sub, hcount]
  · have hneg := minInt_neg sz
    rw [hget, hget, wrapInt_of_inRange sz _ (by omega) hle,
      wrapInt_of_inRange sz _ (by omega) (by omega), hcount]

theorem podFoo_key : podFoo.key = some ⟨.pod, "default", "foo"⟩ := rfl

theorem churn_valid (n : Nat) :
    ∀ s : Store, (⟨.pod, "default", "foo"⟩ : ResourceKey) ∈ s →
      validHistory s (churn n) = true := by
  induction n with
  | zero => intro _ _; rfl
  | succ m ih =>
    intro s hs
    have hstep1 : validStep s (.delete podFoo) = true := by
      simp [validStep, podFoo_key, hs]
    have hstep2 : validStep (s.apply (.delete podFoo)) (.add podFoo) = true := by
      simp [validStep, Store.apply, podFoo_key]
    have hmem : (⟨.pod, "default", "foo"⟩ : ResourceKey)
        ∈ (s.apply (.delete podFoo)).apply (.add podFoo) := by
      simp [Store.apply, podFoo_key]
    show (validStep s (.delete podFoo) &&
      (validStep (s.apply (.delete podFoo)) (.add podFoo) &&
        validHistory ((s.apply (.delete podFoo)).apply (.add podFoo)) (churn m))) = true
    rw [hstep1, hstep2, ih _ hmem]
    rfl

theorem add_churn_valid (n : Nat) : validHistory ∅ (.add podFoo :: churn n) = true := by
  have hstep : validStep ∅ (.add podFoo) = true := by
    simp [validStep, podFoo_key]
  have hmem : (⟨.pod, "default", "foo"⟩ : ResourceKey)
      ∈ Store.apply ∅ (.add podFoo) :=
    (AList.mem_insert (∅ : Store)).2 (Or.inl rfl)
  show (validStep ∅ (.add podFoo) && validHistory (Store.apply ∅ (.add podFoo)) (churn n)) = true
  rw [hstep, churn_valid n _ hmem]
  rfl

theorem occurrences_churn (n : Nat) :
    occurrences .pod .add (churn n) = n ∧ occurrences .pod .delete (churn n) = n := by
  induction n with
  | zero => exact ⟨rfl, rfl⟩
  | succ m ih =>
    have h1 : churn (m + 1) = .delete podFoo :: .add podFoo :: churn m := rfl
    rw [h1, occurrences_cons .pod .add, occurrences_cons .pod .add (.add podFoo),
      occurrences_cons .pod .delete, occurrences_cons .pod .delete (.add podFoo),
      ih.1, ih.2]
    have e1 : occurrences .pod .add [.delete podFoo] = 0 := rfl
    have e2 : occurrences .pod .add [.add podFoo] = 1 := rfl
    have e3 : occurrences .pod .delete [.delete podFoo] = 1 := rfl
    have e4 : occurrences .pod .delete [.add podFoo] = 0 := rfl
    rw [e1, e2, e3, e4]
    omega

theorem occurrences_add_churn (n : Nat) :
    occurrences .pod .add (.add podFoo :: churn n) = n + 1 ∧
    occurrences .pod .delete (.add podFoo :: churn n) = n := by
  rw [occurrences_cons .pod .add, occurrences_cons .pod .delete, (occurrences_churn n).1,
    (occurrences_churn n).2]
  have e2 : occurrences .pod .add [.add podFoo] = 1 := rfl
  have e4 : occurrences .pod .delete [.add podFoo] = 0 := rfl
  rw [e2, e4]
  omega

/-- Counters and store after adding Pod `default/foo` and then deleting and
re-adding it `n` times. -/
theorem add_churn_facts (sz : IntSize) (n : Nat) :
    Store.countKind (Store.replay ∅ (.add podFoo :: churn n)) .pod = 1 ∧
    (run sz (.add podFoo :: churn n) World.initial).world.counters.totalPodAddCount
      = wrapInt sz (n + 1 : Nat) ∧
    (run sz (.add podFoo :: churn n) World.initial).world.counters.totalPodDeleteCount
      = wrapInt sz n := by
  obtain ⟨_, hget, hbal⟩ := validHistory_facts sz _ (add_churn_valid n) .pod
  obtain ⟨hadd, hdel⟩ := occurrences_add_churn n
  have h1 := hget .add
  have h2 := hget .delete
  rw [hadd] at h1
  rw [hdel] at h2
  rw [hadd, hdel] at hbal
  exact ⟨by omega, h1, h2⟩


/-! ## Interleaved Adds -/

theorem Counters.get_set_same (c : Counters) (k : Kind) (e : EventType) (v : Int) :
    (c.set k e v).get k e = v := by
  cases k <;> cases e <;> rfl

theorem Counters.get_set_other (c : Counters) (k k₂ : Kind) (e e₂ : EventType) (v : Int)
    (h : ¬ (k₂ = k ∧ e₂ = e)) : (c.set k e v).get k₂ e₂ = c.get k₂ e₂ := by
  cases k <;> cases e <;> cases k₂ <;> cases e₂ <;> first | rfl | exact absurd ⟨rfl, rfl⟩ h

/-- A goroutine running alone through the three steps of one call does what
`onAdd` does, and ends panicked exactly when `onAdd` panics. -/
theorem Goroutine.three_steps_eq_onAdd (sz : IntSize) (obj : Obj) (rest : List Obj) (w : World) :
    let s₁ := Goroutine.step sz ⟨obj :: rest, .idle⟩ w
    let s₂ := Goroutine.step sz s₁.1 s₁.2
    let s₃ := Goroutine.step sz s₂.1 s₂.2
    s₃ = (⟨rest, if (onAdd sz obj w).panicked = true then .panicked else .idle⟩,
      (onAdd sz obj w).world) := by
  cases obj <;> rfl

theorem addedLine_of_nonNil (obj : Obj) (n : Int) (h : obj.isNil = false) :
    ∃ line, addedLine obj n = some line := by
  cases obj <;> simp_all [addedLine, Obj.isNil]

/-- A step of a goroutine writes no counter but the Add counter of the kind
it delivers. -/
theorem Goroutine.step_frame (sz : IntSize) (k : Kind) (total : Nat) (g : Goroutine) (w : World)
    (hinv : g.Inv k total w.counters) (k₂ : Kind) (e₂ : EventType)
    (h : ¬ (k₂ = k ∧ e₂ = .add)) :
    (g.step sz w).2.counters.get k₂ e₂ = w.counters.get k₂ e₂ := by
  obtain ⟨g_pending, g_phase⟩ := g
  cases g_phase with
  | idle =>
    cases g_pending <;> rfl
  | loaded obj reg =>
    obtain ⟨_, _, hk, _, _⟩ := hinv
    simp only [Goroutine.step]
    rw [hk.1]
    exact Counters.get_set_other _ _ _ _ _ _ h
  | stored obj =>
    obtain ⟨_, _, hk, _⟩ := hinv
    obtain ⟨line, hline⟩ := addedLine_of_nonNil obj (w.counters.get obj.kind .add) hk.2
    simp only [Goroutine.step, hline]
  | panicked => rfl

/-- A step of a goroutine keeps its own invariant. -/
theorem Goroutine.step_keeps_inv (sz : IntSize) (k : Kind) (total : Nat) (g : Goroutine) (w : World)
    (htotal : (total : Int) ≤ maxInt sz) (hinv : g.Inv k total w.counters) :
    (g.step sz w).1.Inv k total (g.step sz w).2.counters := by
  obtain ⟨g_pending, g_phase⟩ := g
  cases g_phase with
  | idle =>
    cases g_pending with
    | nil => exact hinv
    | cons obj rest =>
      obtain ⟨hall, hnn, hsum⟩ := hinv
      refine ⟨fun o ho => hall o (List.mem_cons_of_mem _ ho), hnn, ?_⟩
      have hk := hall obj (List.mem_cons_self _ _)
      simp only [Goroutine.step]
      refine ⟨hk, by rw [hk.1], ?_⟩
      simp only [List.length_cons] at hsum
      push_cast at hsum
      omega
  | loaded obj reg =>
    obtain ⟨hall, hnn, hk, hreg, hsum⟩ := hinv
    have hneg := minInt_neg sz
    have hincr : incr sz reg = reg + 1 := incr_of_lt sz reg (by omega) (by omega)
    have hget : (w.counters.set obj.kind .add (incr sz reg)).get k .add = reg + 1 := by
      rw [hk.1, hincr, Counters.get_set_same]
    show (∀ o ∈ g_pending, o.kind = k ∧ o.isNil = false) ∧
      0 ≤ (w.counters.set obj.kind .add (incr sz reg)).get k .add ∧
      (obj.kind = k ∧ obj.isNil = false) ∧
      (w.counters.set obj.kind .add (incr sz reg)).get k .add + g_pending.length = total
    rw [hget]
    have hsum' : w.counters.get k .add + (g_pending.length : Int) + 1 = total := hsum
    exact ⟨hall, by omega, hk, by omega⟩
  | stored obj =>
    obtain ⟨hall, hnn, hk, hsum⟩ := hinv
    obtain ⟨line, hline⟩ := addedLine_of_nonNil obj (w.counters.get obj.kind .add) hk.2
    simp only [Goroutine.step, hline]
    exact ⟨hall, hnn, hsum⟩
  | panicked => exact hinv.2.2.elim

/-- The invariant of one goroutine survives a change of the counters that
leaves its own counter alone. -/
theorem Goroutine.inv_of_get_eq (k : Kind) (total : Nat) (g : Goroutine) (c c₂ : Counters)
    (h : c₂.get k .add = c.get k .add) (hinv : g.Inv k total c) : g.Inv k total c₂ := by
  unfold Goroutine.Inv at hinv ⊢
  rw [h]
  exact hinv

theorem Goroutine.not_panicked_of_inv (k : Kind) (total : Nat) (g : Goroutine) (c : Counters)
    (hinv : g.Inv k total c) : g.phase ≠ .panicked := by
  intro hp
  obtain ⟨g_pending, g_phase⟩ := g
  subst hp
  exact hinv.2.2

/-- Under the invariant no goroutine has panicked, so the chosen goroutine
moves. -/
theorem System.step_of_inv (sz : IntSize) (nPods nCMs : Nat) (s : System) (t : Turn)
    (hinv : s.Inv nPods nCMs) :
    s.step sz t =
      match t with
      | .podInformer =>
        ⟨(s.podInformer.step sz s.world).1, s.cmInformer, (s.podInformer.step sz s.world).2⟩
      | .cmInformer =>
        ⟨s.podInformer, (s.cmInformer.step sz s.world).1, (s.cmInformer.step sz s.world).2⟩ := by
  have h1 := Goroutine.not_panicked_of_inv _ _ _ _ hinv.1
  have h2 := Goroutine.not_panicked_of_inv _ _ _ _ hinv.2.1
  have hc : s.crashed = false := by simp [System.crashed, h1, h2]
  cases t <;> simp [System.step, hc]

theorem System.step_preserves_inv (sz : IntSize) (nPods nCMs : Nat) (s : System) (t : Turn)
    (hP : (nPods : Int) ≤ maxInt sz) (hC : (nCMs : Int) ≤ maxInt sz)
    (hinv : s.Inv nPods nCMs) : (s.step sz t).Inv nPods nCMs := by
  rw [System.step_of_inv sz nPods nCMs s t hinv]
  obtain ⟨hp, hc, hz⟩ := hinv
  cases t with
  | podInformer =>
    refine ⟨Goroutine.step_keeps_inv sz .pod nPods _ _ hP hp, ?_, ?_⟩
    · exact Goroutine.inv_of_get_eq _ _ _ _ _
        (Goroutine.step_frame sz .pod nPods _ _ hp .configMap .add (by simp)) hc
    · intro k e hke
      have : (s.podInformer.step sz s.world).2.counters.get k e = s.world.counters.get k e :=
        Goroutine.step_frame sz .pod nPods _ _ hp k e (fun h => hke ⟨h.2, Or.inl h.1⟩)
      show (s.podInformer.step sz s.world).2.counters.get k e = 0
      rw [this]
      exact hz k e hke
  | cmInformer =>
    refine ⟨?_, Goroutine.step_keeps_inv sz .configMap nCMs _ _ hC hc, ?_⟩
    · exact Goroutine.inv_of_get_eq _ _ _ _ _
        (Goroutine.step_frame sz .configMap nCMs _ _ hc .pod .add (by simp)) hp
    · intro k e hke
      have : (s.cmInformer.step sz s.world).2.counters.get k e = s.world.counters.get k e :=
        Goroutine.step_frame sz .configMap nCMs _ _ hc k e (fun h => hke ⟨h.2, Or.inr h.1⟩)
      show (s.cmInformer.step sz s.world).2.counters.get k e = 0
      rw [this]
      exact hz k e hke

theorem System.exec_inv (sz : IntSize) (nPods nCMs : Nat)
    (hP : (nPods : Int) ≤ maxInt sz) (hC : (nCMs : Int) ≤ maxInt sz) (schedule : List Turn) :
    ∀ s : System, s.Inv nPods nCMs → (s.exec sz schedule).Inv nPods nCMs := by
  induction schedule with
  | nil => intro s h; exact h
  | cons t rest ih =>
    intro s h
    exact ih _ (System.step_preserves_inv sz nPods nCMs s t hP hC h)

theorem System.start_inv (pods cms : List ObjectMeta) :
    (System.start (pods.map .pod) (cms.map .configMap)).Inv pods.length cms.length := by
  refine ⟨⟨?_, le_refl _, ?_⟩, ⟨?_, le_refl _, ?_⟩, ?_⟩
  · intro o ho
    obtain ⟨m, _, rfl⟩ := List.mem_map.1 ho
    exact ⟨rfl, rfl⟩
  · simp [System.start, World.initial, Counters.initial, Counters.get]
  · intro o ho
    obtain ⟨m, _, rfl⟩ := List.mem_map.1 ho
    exact ⟨rfl, rfl⟩
  · simp [System.start, World.initial, Counters.initial, Counters.get]
  · intro k e _
    exact Counters.initial_get k e

/-- Once both goroutines have drained, the counters are the numbers of Adds
delivered. -/
theorem System.inv_done (nPods nCMs : Nat) (s : System) (hinv : s.Inv nPods nCMs)
    (hp : s.podInformer.done = true) (hc : s.cmInformer.done = true) :
    s.world.counters = ⟨nPods, 0, 0, nCMs, 0, 0, 0, 0, 0⟩ := by
  obtain ⟨⟨_, _, h1⟩, ⟨_, _, h2⟩, hz⟩ := hinv
  simp only [Goroutine.done, Bool.and_eq_true, decide_eq_true_eq] at hp hc
  rw [hp.2, hp.1] at h1
  rw [hc.2, hc.1] at h2
  simp only [List.length_nil, Nat.cast_zero, add_zero] at h1 h2
  apply Counters.ext_get
  intro k e
  cases k <;> cases e <;>
    first
    | exact h1
    | exact h2
    | exact hz _ _ (by simp)

/-- A goroutine under its invariant moves one step closer to drained. -/
theorem Goroutine.remaining_step (sz : IntSize) (k : Kind) (total : Nat) (g : Goroutine)
    (w : World) (hinv : g.Inv k total w.counters) :
    (g.step sz w).1.remaining = g.remaining - 1 := by
  obtain ⟨g_pending, g_phase⟩ := g
  cases g_phase with
  | idle =>
    cases g_pending with
    | nil => rfl
    | cons obj rest =>
      simp only [Goroutine.step, Goroutine.remaining, List.length_cons]
      omega
  | loaded obj reg => simp [Goroutine.step, Goroutine.remaining]
  | stored obj =>
    obtain ⟨_, _, hk, _⟩ := hinv
    obtain ⟨line, hline⟩ := addedLine_of_nonNil obj (w.counters.get obj.kind .add) hk.2
    simp [Goroutine.step, Goroutine.remaining, hline]
  | panicked => exact hinv.2.2.elim

theorem Goroutine.done_iff (k : Kind) (total : Nat) (g : Goroutine) (c : Counters)
    (hinv : g.Inv k total c) : g.done = true ↔ g.remaining = 0 := by
  obtain ⟨g_pending, g_phase⟩ := g
  cases g_phase with
  | panicked => exact hinv.2.2.elim
  | idle => cases g_pending <;> simp [Goroutine.done, Goroutine.remaining]
  | loaded obj reg => cases g_pending <;> simp [Goroutine.done, Goroutine.remaining]
  | stored obj => cases g_pending <;> simp [Goroutine.done, Goroutine.remaining]

/-- A schedule takes from each goroutine's remaining steps the turns it gives
that goroutine. -/
theorem System.exec_remaining (sz : IntSize) (nPods nCMs : Nat)
    (hP : (nPods : Int) ≤ maxInt sz) (hC : (nCMs : Int) ≤ maxInt sz) (schedule : List Turn) :
    ∀ s : System, s.Inv nPods nCMs →
      (s.exec sz schedule).podInformer.remaining
        = s.podInformer.remaining - schedule.count .podInformer ∧
      (s.exec sz schedule).cmInformer.remaining
        = s.cmInformer.remaining - schedule.count .cmInformer := by
  induction schedule with
  | nil => intro s _; exact ⟨rfl, rfl⟩
  | cons t rest ih =>
    intro s hinv
    obtain ⟨ih1, ih2⟩ := ih (s.step sz t) (System.step_preserves_inv sz nPods nCMs s t hP hC hinv)
    have e : s.exec sz (t :: rest) = (s.step sz t).exec sz rest := rfl
    rw [e, ih1, ih2, System.step_of_inv sz nPods nCMs s t hinv]
    cases t with
    | podInformer =>
      have h1 : (s.podInformer.step sz s.world).1.remaining = s.podInformer.remaining - 1 :=
        Goroutine.remaining_step sz _ _ _ _ hinv.1
      have c1 : (Turn.podInformer :: rest).count .podInformer = rest.count .podInformer + 1 :=
        List.count_cons_self _ _
      have c2 : (Turn.podInformer :: rest).count .cmInformer = rest.count .cmInformer :=
        List.count_cons_of_ne (by decide) _
      show (s.podInformer.step sz s.world).1.remaining - _ = _ ∧ s.cmInformer.remaining - _ = _
      rw [h1, c1, c2]
      constructor <;> omega
    | cmInformer =>
      have h1 : (s.cmInformer.step sz s.world).1.remaining = s.cmInformer.remaining - 1 :=
        Goroutine.remaining_step sz _ _ _ _ hinv.2.1
      have c1 : (Turn.cmInformer :: rest).count .cmInformer = rest.count .cmInformer + 1 :=
        List.count_cons_self _ _
      have c2 : (Turn.cmInformer :: rest).count .podInformer = rest.count .podInformer :=
        List.count_cons_of_ne (by decide) _
      show s.podInformer.remaining - _ = _ ∧ (s.cmInformer.step sz s.world).1.remaining - _ = _
      rw [h1, c1, c2]
      constructor <;> omega

/-- In this model unsynchronised increments of one shared counter can be
lost: when both goroutines deliver a Pod Add and both read
`totalPodAddCount` before either writes it, the counter ends at 1. -/
theorem lost_update_on_shared_counter :
    ((System.start [podFoo] [podFoo]).exec .bits64
      [.podInformer, .cmInformer, .podInformer, .cmInformer, .podInformer,
        .cmInformer]).world.counters.totalPodAddCount = 1 := by
  decide


/-! ## C1: counters count notifications -/

/-- C1 (as amended): starting from all nine counters at zero, for every finite
sequence of notifications whose objects are not nil pointers and whose
Updates carry an old and a new object of the same kind, handled one after
another, no handler panics and each counter `total<Kind><Event>Count` ends
equal to the number of notifications of that event type on objects of that
kind (the old object for Update), reduced to the range of `int` by two's
complement wrap-around; it equals that number itself whenever the number is
at most the largest `int`. -/
theorem C1_counters_count_notifications (sz : IntSize) (ns : List Notification)
    (hkind : ns.all Notification.sameKind = true)
    (hnil : ns.all Notification.nonNil = true) :
    (run sz ns World.initial).panicked = false ∧
    ∀ k e,
      (run sz ns World.initial).world.counters.get k e = wrapInt sz (occurrences k e ns) ∧
      ((occurrences k e ns : Int) ≤ maxInt sz →
        (run sz ns World.initial).world.counters.get k e = occurrences k e ns) := by
  refine ⟨(run_get sz ns World.initial hkind hnil).1, fun k e =>
    ⟨run_initial_get sz ns hkind hnil k e, fun hle => ?_⟩⟩
  rw [run_initial_get sz ns hkind hnil k e]
  exact wrapInt_of_inRange sz _ (by have := minInt_neg sz; omega) hle

/-- C1, the spec's scenario: Add, Update, Delete of Pod `default/foo` leaves
the three Pod counters at 1 and every other counter at 0. -/
theorem C1_witness_pod_foo :
    scenarioPodFoo.all Notification.sameKind = true ∧
    scenarioPodFoo.all Notification.nonNil = true ∧
    (run .bits64 scenarioPodFoo World.initial).panicked = false ∧
    (run .bits64 scenarioPodFoo World.initial).world.counters.get .pod .add
      = occurrences .pod .add scenarioPodFoo ∧
    (run .bits64 scenarioPodFoo World.initial).world.counters
      = ⟨1, 1, 1, 0, 0, 0, 0, 0, 0⟩ :=
  ⟨by decide, by decide,
    (C1_counters_count_notifications .bits64 scenarioPodFoo (by decide) (by decide)).1,
    ((C1_counters_count_notifications .bits64 scenarioPodFoo (by decide) (by decide)).2
      .pod .add).2 (by decide),
    by decide⟩

/-- C1 as stated fails in two ways. Once a counter overflows: after `2^63`
Add notifications of Pod `default/foo` on a 64-bit `int` (and after `2^31` on
a 32-bit `int`) the sequence holds that many Pod Adds, while
`totalPodAddCount` has wrapped around to the smallest `int`. And on a nil
pointer: the sequence Add of a nil `*corev1.Pod`, Add of ConfigMap
`default/bar` has no Update and holds one ConfigMap Add, but `onAdd` panics
on the nil Pod after counting it, so the run ends there with
`totalPodAddCount = 1` and `totalCMAddCount = 0`. -/
theorem C1_counterexample_overflow_and_nil :
    ((occurrences .pod .add (List.replicate (2 ^ 63) (.add podFoo)) = 2 ^ 63 ∧
        (run .bits64 (List.replicate (2 ^ 63) (.add podFoo))
          World.initial).world.counters.totalPodAddCount = -(2 ^ 63)) ∧
      (occurrences .pod .add (List.replicate (2 ^ 31) (.add podFoo)) = 2 ^ 31 ∧
        (run .bits32 (List.replicate (2 ^ 31) (.add podFoo))
          World.initial).world.counters.totalPodAddCount = -(2 ^ 31))) ∧
    ([Notification.add .nilPod, .add cmBar].all Notification.sameKind = true ∧
      occurrences .configMap .add [.add .nilPod, .add cmBar] = 1 ∧
      (run .bits64 [.add .nilPod, .add cmBar] World.initial).panic = some .nilDereference ∧
      (run .bits64 [.add .nilPod, .add cmBar] World.initial).world.counters
        = ⟨1, 0, 0, 0, 0, 0, 0, 0, 0⟩) := by
  have hocc : ∀ n : Nat,
      occurrences .pod .add (List.replicate n (.add podFoo)) = n := by
    intro n
    unfold occurrences
    rw [List.countP_replicate]
    simp [Notification.isOf, Notification.eventType, Notification.subject, podFoo, Obj.kind]
  have hrun : ∀ (sz : IntSize) (n : Nat),
      (run sz (List.replicate n (.add podFoo)) World.initial).world.counters.totalPodAddCount
        = wrapInt sz n := by
    intro sz n
    have h := run_initial_get sz _ (replicate_add_sameKind podFoo n)
      (replicate_add_podFoo_nonNil n) .pod .add
    rw [hocc n] at h
    exact h
  refine ⟨⟨⟨hocc _, ?_⟩, ⟨hocc _, ?_⟩⟩, by decide, by decide, by decide, by decide⟩
  · rw [hrun]
    simp [wrapInt, minInt, IntSize.bits]
  · rw [hrun]
    simp [wrapInt, minInt, IntSize.bits]


/-! ## C2: counters against the store -/

/-- C2 (as amended): for every sequence of notifications that is a valid
history of the keyed store starting empty (Add only for an absent key, Update
and Delete only for a present key, every object a Pod or a ConfigMap), after
the handlers have handled the whole sequence from zero counters without a
panic, `totalPodAddCount - totalPodDeleteCount` equals the number of Pod keys
in the store provided the sequence holds at most `maxInt` Pod Adds, and
likewise `totalCMAddCount - totalCMDeleteCount` for ConfigMap keys; without
that proviso the two sides agree after reduction to the range of `int`. -/
theorem C2_counter_store_agreement (sz : IntSize) (ns : List Notification)
    (hvalid : validHistory ∅ ns = true) :
    (run sz ns World.initial).panicked = false ∧
    ((occurrences .pod .add ns : Int) ≤ maxInt sz →
      (run sz ns World.initial).world.counters.totalPodAddCount
        - (run sz ns World.initial).world.counters.totalPodDeleteCount
      = Store.countKind (Store.replay ∅ ns) .pod) ∧
    ((occurrences .configMap .add ns : Int) ≤ maxInt sz →
      (run sz ns World.initial).world.counters.totalCMAddCount
        - (run sz ns World.initial).world.counters.totalCMDeleteCount
      = Store.countKind (Store.replay ∅ ns) .configMap) ∧
    wrapInt sz ((run sz ns World.initial).world.counters.totalPodAddCount
        - (run sz ns World.initial).world.counters.totalPodDeleteCount)
      = wrapInt sz (Store.countKind (Store.replay ∅ ns) .pod) ∧
    wrapInt sz ((run sz ns World.initial).world.counters.totalCMAddCount
        - (run sz ns World.initial).world.counters.totalCMDeleteCount)
      = wrapInt sz (Store.countKind (Store.replay ∅ ns) .configMap) :=
  ⟨(validHistory_facts sz ns hvalid .pod).1,
    (validHistory_counters sz ns hvalid .pod).2,
    (validHistory_counters sz ns hvalid .configMap).2,
    (validHistory_counters sz ns hvalid .pod).1,
    (validHistory_counters sz ns hvalid .configMap).1⟩

/-- C2 at a concrete history: Pod `default/foo` added, ConfigMap
`default/bar` added, the Pod updated, the ConfigMap deleted; one Pod key and
no ConfigMap key remain. -/
theorem C2_witness :
    validHistory ∅ historyFooBar = true ∧
    (occurrences .pod .add historyFooBar : Int) ≤ maxInt .bits64 ∧
    Store.countKind (Store.replay ∅ historyFooBar) .pod = 1 ∧
    (run .bits64 historyFooBar World.initial).world.counters.totalPodAddCount
        - (run .bits64 historyFooBar World.initial).world.counters.totalPodDeleteCount
      = Store.countKind (Store.replay ∅ historyFooBar) .pod :=
  ⟨by decide, by decide, by decide,
    (C2_counter_store_agreement .bits64 historyFooBar (by decide)).2.1 (by decide)⟩

/-- C2 as stated fails once `totalPodAddCount` overflows: the history that
adds Pod `default/foo` and then deletes and re-adds it `2^63 - 1` times is a
valid history of the store, leaves one Pod key in the store, and leaves
`totalPodAddCount - totalPodDeleteCount = -2^63 - (2^63 - 1)` on a 64-bit
`int`. -/
theorem C2_counterexample_overflow :
    validHistory ∅ (.add podFoo :: churn (2 ^ 63 - 1)) = true ∧
    Store.countKind (Store.replay ∅ (.add podFoo :: churn (2 ^ 63 - 1))) .pod = 1 ∧
    (run .bits64 (.add podFoo :: churn (2 ^ 63 - 1)) World.initial).world.counters.totalPodAddCount
      - (run .bits64 (.add podFoo :: churn (2 ^ 63 - 1))
          World.initial).world.counters.totalPodDeleteCount
      = -18446744073709551615 := by
  refine ⟨add_churn_valid _, (add_churn_facts .bits64 _).1, ?_⟩
  rw [(add_churn_facts .bits64 (2 ^ 63 - 1)).2.1, (add_churn_facts .bits64 (2 ^ 63 - 1)).2.2]
  simp [wrapInt, minInt, IntSize.bits]


/-! ## C3: monotone counters -/

/-- C3 (as amended): for every counter state with all nine counters `>= 0`
in which the counter the call addresses (kind of the object, of the old
object for Update; event type) is below the largest `int`, after one call of
`onAdd`, `onUpdate` or `onDelete`, panicking or not, each of the nine
counters is `>=` its value before the call, hence still `>= 0`. -/
theorem C3_counters_never_decrease (sz : IntSize) (n : Notification) (w : World)
    (hnonneg : ∀ k e, 0 ≤ w.counters.get k e)
    (hroom : w.counters.get n.subject.kind n.eventType < maxInt sz) :
    ∀ k e,
      w.counters.get k e ≤ (deliver sz n w).world.counters.get k e ∧
      0 ≤ (deliver sz n w).world.counters.get k e := by
  intro k e
  have h0 := hnonneg k e
  rw [deliver_get]
  by_cases hn : n.isOf k e = true
  · obtain ⟨hk, he⟩ := (isOf_iff k e n).1 hn
    rw [hk, he] at hroom
    rw [if_pos hn, incr_of_lt sz _ (by have := minInt_neg sz; omega) hroom]
    omega
  · rw [if_neg hn]
    omega

/-- C3 at a concrete state: `onAdd` of Pod `default/foo` with
`totalPodAddCount = 41`. -/
theorem C3_witness :
    (∀ k e, 0 ≤ (World.mk ⟨41, 0, 0, 0, 0, 0, 0, 0, 0⟩ []).counters.get k e) ∧
    (41 : Int) ≤ (onAdd .bits64 podFoo ⟨⟨41, 0, 0, 0, 0, 0, 0, 0, 0⟩, []⟩).world.counters.get
      .pod .add :=
  ⟨by intro k e; cases k <;> cases e <;> decide,
    ((C3_counters_never_decrease .bits64 (.add podFoo) ⟨⟨41, 0, 0, 0, 0, 0, 0, 0, 0⟩, []⟩
      (by intro k e; cases k <;> cases e <;> decide) (by decide)) .pod .add).1⟩

/-- C3 as stated fails at the largest `int`: with `totalPodAddCount =
2^63 - 1` and the other eight counters 0 (all `>= 0`), `onAdd` of a Pod
leaves `totalPodAddCount = -2^63`, below its value before the call and
negative. -/
theorem C3_counterexample_wraps :
    (onAdd .bits64 podFoo
      ⟨⟨9223372036854775807, 0, 0, 0, 0, 0, 0, 0, 0⟩, []⟩).world.counters.totalPodAddCount
      = -9223372036854775808 ∧
    (onAdd .bits64 podFoo
      ⟨⟨9223372036854775807, 0, 0, 0, 0, 0, 0, 0, 0⟩, []⟩).world.counters.totalPodAddCount
      < 9223372036854775807 := by
  decide


/-! ## C4: concurrent Adds from the two informers -/

/-- C4: when the Pod informer delivers 1000 Pod Adds and the ConfigMap
informer 1000 ConfigMap Adds, each from its own goroutine and interleaved in
any order at the reads and writes of the counters, then once both have
drained `totalPodAddCount = 1000` and `totalCMAddCount = 1000` and every
other counter is 0: no increment is lost or duplicated, because the two
goroutines write different counters. Every schedule that gives each goroutine
the 3000 steps of its 1000 calls drains both. -/
theorem C4_concurrent_adds (sz : IntSize) (pods cms : List ObjectMeta) (schedule : List Turn)
    (hpods : pods.length = 1000) (hcms : cms.length = 1000) :
    (((System.start (pods.map .pod) (cms.map .configMap)).exec sz
          schedule).podInformer.done = true →
      ((System.start (pods.map .pod) (cms.map .configMap)).exec sz
          schedule).cmInformer.done = true →
      ((System.start (pods.map .pod) (cms.map .configMap)).exec sz
          schedule).world.counters = ⟨1000, 0, 0, 1000, 0, 0, 0, 0, 0⟩) ∧
    (3000 ≤ schedule.count .podInformer → 3000 ≤ schedule.count .cmInformer →
      ((System.start (pods.map .pod) (cms.map .configMap)).exec sz
          schedule).podInformer.done = true ∧
      ((System.start (pods.map .pod) (cms.map .configMap)).exec sz
          schedule).cmInformer.done = true) := by
  have hmax := maxInt_large sz
  have hP : ((pods.length : Nat) : Int) ≤ maxInt sz := by rw [hpods]; push_cast; omega
  have hC : ((cms.length : Nat) : Int) ≤ maxInt sz := by rw [hcms]; push_cast; omega
  have hinv := System.exec_inv sz pods.length cms.length hP hC schedule _
    (System.start_inv pods cms)
  obtain ⟨hr1, hr2⟩ := System.exec_remaining sz pods.length cms.length hP hC schedule _
    (System.start_inv pods cms)
  have hs1 : (System.start (pods.map .pod) (cms.map .configMap)).podInformer.remaining
      = 3000 := by
    simp [System.start, Goroutine.remaining, hpods]
  have hs2 : (System.start (pods.map .pod) (cms.map .configMap)).cmInformer.remaining
      = 3000 := by
    simp [System.start, Goroutine.remaining, hcms]
  refine ⟨fun hp hc => ?_, fun h1 h2 => ⟨?_, ?_⟩⟩
  · have h := System.inv_done pods.length cms.length _ hinv hp hc
    rw [hpods, hcms] at h
    simpa using h
  · rw [Goroutine.done_iff _ _ _ _ hinv.1, hr1, hs1]
    omega
  · rw [Goroutine.done_iff _ _ _ _ hinv.2.1, hr2, hs2]
    omega

/-- C4 at a concrete run: 1000 Adds of Pod `default/foo` and 1000 Adds of
ConfigMap `default/bar`, the Pod informer's goroutine scheduled first. -/
theorem C4_witness :
    (List.replicate 1000 (ObjectMeta.mk "default" "foo")).length = 1000 ∧
    (List.replicate 1000 (ObjectMeta.mk "default" "bar")).length = 1000 ∧
    ((System.start ((List.replicate 1000 (ObjectMeta.mk "default" "foo")).map .pod)
        ((List.replicate 1000 (ObjectMeta.mk "default" "bar")).map .configMap)).exec .bits64
      (List.replicate 3000 Turn.podInformer ++ List.replicate 3000 Turn.cmInformer)).world.counters
      = ⟨1000, 0, 0, 1000, 0, 0, 0, 0, 0⟩ := by
  have h := C4_concurrent_adds .bits64
    (List.replicate 1000 (ObjectMeta.mk "default" "foo"))
    (List.replicate 1000 (ObjectMeta.mk "default" "bar"))
    (List.replicate 3000 Turn.podInformer ++ List.replicate 3000 Turn.cmInformer)
    (List.length_replicate _ _) (List.length_replicate _ _)
  have c1 : 3000 ≤ (List.replicate 3000 Turn.podInformer
      ++ List.replicate 3000 Turn.cmInformer).count .podInformer := by
    rw [List.count_append, List.count_replicate_self]
    omega
  have c2 : 3000 ≤ (List.replicate 3000 Turn.podInformer
      ++ List.replicate 3000 Turn.cmInformer).count .cmInformer := by
    rw [List.count_append, List.count_replicate_self]
    omega
  exact ⟨List.length_replicate _ _, List.length_replicate _ _,
    h.1 (h.2 c1 c2).1 (h.2 c1 c2).2⟩


/-! ## C5: the sync barrier in `main` -/

/-- C5: when the client could be built, `main` reaches the barrier
`cache.WaitForCacheSync` exactly once, after having started the Pod and the
ConfigMap informer and nothing else, and takes it over the `HasSynced` of
both. In every execution `main` enters its wait on the stop channel only when
the barrier returned true; when the barrier returns true it ends in that
wait without reporting an error, and when the barrier returns false it
reports "Timed out waiting for caches to sync" and returns without entering
the wait. -/
theorem C5_sync_barrier (env : Env) :
    (env.buildConfigErr = none → env.newForConfigErr = none →
      ∃ before after,
        (main env).1 = before ++ Effect.waitForCacheSync [.pods, .configMaps] :: after ∧
        started before = [.pods, .configMaps] ∧
        started after = [] ∧
        (∀ ids, Effect.waitForCacheSync ids ∉ before ∧ Effect.waitForCacheSync ids ∉ after) ∧
        Effect.receiveStopper ∉ before) ∧
    (Effect.receiveStopper ∈ (main env).1 →
      env.cacheSynced = true ∧ Effect.waitForCacheSync [.pods, .configMaps] ∈ (main env).1) ∧
    (∀ ids, Effect.waitForCacheSync ids ∈ (main env).1 → env.cacheSynced = true →
      (main env).2 = .waitingOnStopper ∧
      (main env).1.getLast? = some .receiveStopper ∧
      ∀ msg, Effect.handleError msg ∉ (main env).1) ∧
    (∀ ids, Effect.waitForCacheSync ids ∈ (main env).1 → env.cacheSynced = false →
      Effect.handleError "Timed out waiting for caches to sync" ∈ (main env).1 ∧
      (main env).2 = .returned ∧
      Effect.receiveStopper ∉ (main env).1) := by
  refine ⟨?_, ?_, ?_, ?_⟩
  · intro hb hn
    cases hs : env.cacheSynced
    · refine ⟨[.logPrint "Shared Informer app started", .getenv "KUBECONFIG",
          .buildConfigFromFlags "" env.kubeconfig, .newForConfig, .makeStopper,
          .newSharedInformerFactory 0, .addEventHandler .pods, .goRun .pods,
          .newSharedInformerFactory 0, .addEventHandler .configMaps, .goRun .configMaps],
        [.handleError "Timed out waiting for caches to sync", .closeStopper, .handleCrash],
        ?_, ?_, ?_, ?_, ?_⟩ <;>
        simp [main, hb, hn, hs, AddPodInformer, AddConfigMapInformer, started]
    · refine ⟨[.logPrint "Shared Informer app started", .getenv "KUBECONFIG",
          .buildConfigFromFlags "" env.kubeconfig, .newForConfig, .makeStopper,
          .newSharedInformerFactory 0, .addEventHandler .pods, .goRun .pods,
          .newSharedInformerFactory 0, .addEventHandler .configMaps, .goRun .configMaps],
        [.receiveStopper], ?_, ?_, ?_, ?_, ?_⟩ <;>
        simp [main, hb, hn, hs, AddPodInformer, AddConfigMapInformer, started]
  · rcases env with ⟨kc, _ | e1, _ | e2, _ | _⟩ <;>
      simp [main, AddPodInformer, AddConfigMapInformer]
  · rcases env with ⟨kc, _ | e1, _ | e2, _ | _⟩ <;>
      simp [main, AddPodInformer, AddConfigMapInformer]
  · rcases env with ⟨kc, _ | e1, _ | e2, _ | _⟩ <;>
      simp [main, AddPodInformer, AddConfigMapInformer]


/-! ## C6: no coalescing in front of the handlers -/

/-- C6 (as amended): the handlers do no coalescing. When an Add for an
object (not a nil pointer) and then a Delete for the same object are
delivered, `onAdd` and then `onDelete` run without panicking; the Add counter
and the Delete counter of the object's kind each go up by exactly one (both
being below the largest `int`), so their difference is unchanged, and the
other seven counters keep their values. -/
theorem C6_add_then_delete_counts_both (sz : IntSize) (obj : Obj) (w : World)
    (hnil : obj.isNil = false)
    (haddLo : minInt sz ≤ w.counters.get obj.kind .add)
    (haddHi : w.counters.get obj.kind .add < maxInt sz)
    (hdelLo : minInt sz ≤ w.counters.get obj.kind .delete)
    (hdelHi : w.counters.get obj.kind .delete < maxInt sz) :
    (run sz [.add obj, .delete obj] w).panicked = false ∧
    (run sz [.add obj, .delete obj] w).world.counters.get obj.kind .add
      = w.counters.get obj.kind .add + 1 ∧
    (run sz [.add obj, .delete obj] w).world.counters.get obj.kind .delete
      = w.counters.get obj.kind .delete + 1 ∧
    ∀ k e, ¬ (k = obj.kind ∧ (e = .add ∨ e = .delete)) →
      (run sz [.add obj, .delete obj] w).world.counters.get k e = w.counters.get k e := by
  obtain ⟨hp, hget⟩ := run_get sz [.add obj, .delete obj] w (by rfl)
    (by simp [Notification.nonNil, hnil])
  refine ⟨hp, ?_, ?_, ?_⟩
  · rw [hget]
    simp [occurrences, Notification.isOf, Notification.eventType, Notification.subject,
      incr_of_lt sz _ haddLo haddHi]
  · rw [hget]
    simp [occurrences, Notification.isOf, Notification.eventType, Notification.subject,
      incr_of_lt sz _ hdelLo hdelHi]
  · intro k e hne
    rw [hget]
    have hzero : occurrences k e [.add obj, .delete obj] = 0 := by
      unfold occurrences
      rw [List.countP_eq_zero]
      intro n hn
      rw [isOf_iff]
      rintro ⟨hk, he⟩
      simp only [List.mem_cons, List.mem_singleton, List.not_mem_nil, or_false] at hn
      rcases hn with rfl | rfl
      · exact hne ⟨hk.symm, Or.inl he.symm⟩
      · exact hne ⟨hk.symm, Or.inr he.symm⟩
    rw [hzero]
    rfl

/-- C6 at a concrete input: Add then Delete of Pod `default/foo` from zero
counters. -/
theorem C6_witness :
    (podFoo.isNil = false ∧
      minInt .bits64 ≤ World.initial.counters.get podFoo.kind .add ∧
      World.initial.counters.get podFoo.kind .add < maxInt .bits64 ∧
      minInt .bits64 ≤ World.initial.counters.get podFoo.kind .delete ∧
      World.initial.counters.get podFoo.kind .delete < maxInt .bits64) ∧
    (run .bits64 [.add podFoo, .delete podFoo] World.initial).world.counters.get
      podFoo.kind .add = 0 + 1 :=
  ⟨⟨by decide, by decide, by decide, by decide, by decide⟩,
    (C6_add_then_delete_counts_both .bits64 podFoo World.initial
      (by decide) (by decide) (by decide) (by decide) (by decide)).2.1⟩

/-- C6 as stated fails: an Add of Pod `default/foo` followed immediately by
its Delete, from zero counters, leaves `totalPodAddCount = 1` and
`totalPodDeleteCount = 1`, not zero increments. -/
theorem C6_counterexample_both_counted :
    (run .bits64 [.add podFoo, .delete podFoo] World.initial).world.counters
      = ⟨1, 0, 1, 0, 0, 0, 0, 0, 0⟩ := by
  decide

/-! ## C7: objects of unknown type -/

/-- C7 (as amended): for every object whose dynamic type is neither
`*corev1.Pod` nor `*corev1.ConfigMap`, in every counter state, `onAdd`,
`onUpdate` (that object as `oldObj`, any `newObj`) and `onDelete` do not
panic and change no counter other than `totalUnknownAddCount`,
`totalUnknownUpdateCount` and `totalUnknownDeleteCount` respectively; the
call adds exactly 1 to that one counter provided that counter (no other)
holds an `int` below the largest `int`. Conversely, when no handled
notification has such an object as its object (old object for Update), the
three Unknown counters keep their values, whether or not the run panics, so
from program start they stay at 0. -/
theorem C7_unknown_objects (sz : IntSize) (v : String) (newObj : Obj) (w : World) :
    ((onAdd sz (.other v) w).panicked = false ∧
      (∀ k e, ¬ (k = .unknown ∧ e = .add) →
        (onAdd sz (.other v) w).world.counters.get k e = w.counters.get k e) ∧
      (minInt sz ≤ w.counters.totalUnknownAddCount →
        w.counters.totalUnknownAddCount < maxInt sz →
        (onAdd sz (.other v) w).world.counters.totalUnknownAddCount
          = w.counters.totalUnknownAddCount + 1)) ∧
    ((onUpdate sz (.other v) newObj w).panicked = false ∧
      (∀ k e, ¬ (k = .unknown ∧ e = .update) →
        (onUpdate sz (.other v) newObj w).world.counters.get k e = w.counters.get k e) ∧
      (minInt sz ≤ w.counters.totalUnknownUpdateCount →
        w.counters.totalUnknownUpdateCount < maxInt sz →
        (onUpdate sz (.other v) newObj w).world.counters.totalUnknownUpdateCount
          = w.counters.totalUnknownUpdateCount + 1)) ∧
    ((onDelete sz (.other v) w).panicked = false ∧
      (∀ k e, ¬ (k = .unknown ∧ e = .delete) →
        (onDelete sz (.other v) w).world.counters.get k e = w.counters.get k e) ∧
      (minInt sz ≤ w.counters.totalUnknownDeleteCount →
        w.counters.totalUnknownDeleteCount < maxInt sz →
        (onDelete sz (.other v) w).world.counters.totalUnknownDeleteCount
          = w.counters.totalUnknownDeleteCount + 1)) ∧
    (∀ (ns : List Notification) (w₀ : World), (∀ n ∈ ns, n.subject.kind ≠ .unknown) →
      ∀ e, (run sz ns w₀).world.counters.get .unknown e = w₀.counters.get .unknown e) ∧
    (∀ ns : List Notification, (∀ n ∈ ns, n.subject.kind ≠ .unknown) →
      ∀ e, (run sz ns World.initial).world.counters.get .unknown e = 0) := by
  have hconv : ∀ (ns : List Notification) (w₀ : World),
      (∀ n ∈ ns, n.subject.kind ≠ .unknown) →
      ∀ e, (run sz ns w₀).world.counters.get .unknown e = w₀.counters.get .unknown e := by
    intro ns w₀ h e
    apply run_get_untouched
    intro n hn
    have := h n hn
    simp [Notification.isOf, this]
  have hframe : ∀ (n : Notification) (k : Kind) (e : EventType),
      ¬ (k = n.subject.kind ∧ e = n.eventType) →
      (deliver sz n w).world.counters.get k e = w.counters.get k e := by
    intro n k e hne
    rw [deliver_get, if_neg]
    intro hc
    exact hne ⟨((isOf_iff k e n).1 hc).1.symm, ((isOf_iff k e n).1 hc).2.symm⟩
  have hstep : ∀ n : Notification,
      minInt sz ≤ w.counters.get n.subject.kind n.eventType →
      w.counters.get n.subject.kind n.eventType < maxInt sz →
      (deliver sz n w).world.counters.get n.subject.kind n.eventType
        = w.counters.get n.subject.kind n.eventType + 1 := by
    intro n hlo hhi
    rw [deliver_get_exact sz n w hlo hhi, if_pos ⟨rfl, rfl⟩]
  refine ⟨⟨rfl, fun k e hne => ?_, fun hlo hhi => ?_⟩, ⟨rfl, fun k e hne => ?_, fun hlo hhi => ?_⟩,
    ⟨rfl, fun k e hne => ?_, fun hlo hhi => ?_⟩, hconv, ?_⟩
  · exact hframe (.add (.other v)) k e hne
  · exact hstep (.add (.other v)) hlo hhi
  · exact hframe (.update (.other v) newObj) k e hne
  · exact hstep (.update (.other v) newObj) hlo hhi
  · exact hframe (.delete (.other v)) k e hne
  · exact hstep (.delete (.other v)) hlo hhi
  · intro ns h e
    rw [hconv ns World.initial h e, Counters.initial_get]

/-- C7 at a concrete input: `onAdd` of a delete tombstone (not a Pod) with
`totalUnknownUpdateCount` already at the largest `int` still adds exactly 1
to `totalUnknownAddCount`. -/
theorem C7_witness :
    (minInt .bits64 ≤ (0 : Int) ∧ (0 : Int) < maxInt .bits64) ∧
    (onAdd .bits64 (.other "cache.DeletedFinalStateUnknown")
      ⟨⟨0, 0, 0, 0, 0, 0, 0, 9223372036854775807, 0⟩, []⟩).world.counters.totalUnknownAddCount
      = 0 + 1 :=
  ⟨⟨by decide, by decide⟩,
    (C7_unknown_objects .bits64 "cache.DeletedFinalStateUnknown" podFoo
      ⟨⟨0, 0, 0, 0, 0, 0, 0, 9223372036854775807, 0⟩, []⟩).1.2.2 (by decide) (by decide)⟩

/-- C7 as stated fails at the largest `int`: with `totalUnknownAddCount =
2^63 - 1`, `onAdd` of an object of unknown type does not leave it 1 higher
but at `-2^63`. -/
theorem C7_counterexample_wraps :
    (onAdd .bits64 (.other "nil")
      ⟨⟨0, 0, 0, 0, 0, 0, 9223372036854775807, 0, 0⟩, []⟩).world.counters.totalUnknownAddCount
      = -9223372036854775808 ∧
    (onAdd .bits64 (.other "nil")
      ⟨⟨0, 0, 0, 0, 0, 0, 9223372036854775807, 0, 0⟩, []⟩).world.counters.totalUnknownAddCount
      ≠ 9223372036854775807 + 1 := by
  decide

/-! ## C8: frame of onUpdate -/

/-- C8 (as amended): for every counter state and every `(oldObj, newObj)`, a
call of `onUpdate`, panicking or not, changes exactly one counter, the Update
counter of the kind of `oldObj` (Pod, ConfigMap or Unknown), by exactly `+1`
provided that counter is an `int` below the largest `int`, and leaves all
three Add counters, all three Delete counters and the other two Update
counters unchanged; the counters after the call do not depend on `newObj`. -/
theorem C8_onUpdate_frame (sz : IntSize) (oldObj newObj : Obj) (w : World)
    (hlo : minInt sz ≤ w.counters.get oldObj.kind .update)
    (hhi : w.counters.get oldObj.kind .update < maxInt sz) :
    (onUpdate sz oldObj newObj w).world.counters.get oldObj.kind .update
      = w.counters.get oldObj.kind .update + 1 ∧
    (∀ k e, ¬ (k = oldObj.kind ∧ e = .update) →
      (onUpdate sz oldObj newObj w).world.counters.get k e = w.counters.get k e) ∧
    (∀ newObj₂ : Obj, (onUpdate sz oldObj newObj₂ w).world.counters
      = (onUpdate sz oldObj newObj w).world.counters) := by
  have h := deliver_get_exact sz (.update oldObj newObj) w hlo hhi
  refine ⟨?_, fun k e hne => ?_, fun newObj₂ => ?_⟩
  · have h1 := h oldObj.kind .update
    simpa [deliver, Notification.subject, Notification.eventType] using h1
  · have h1 := h k e
    simpa [deliver, Notification.subject, Notification.eventType, hne] using h1
  · apply Counters.ext_get
    intro k e
    have h1 := deliver_get sz (.update oldObj newObj) w k e
    have h2 := deliver_get sz (.update oldObj newObj₂) w k e
    simp only [deliver] at h1 h2
    rw [h1, h2]
    rfl

/-- C8 at a concrete input: a Pod updated to a ConfigMap (the call panics)
still counts as one Pod update. -/
theorem C8_witness :
    (minInt .bits64 ≤ World.initial.counters.get podFoo.kind .update ∧
      World.initial.counters.get podFoo.kind .update < maxInt .bits64) ∧
    (onUpdate .bits64 podFoo cmBar World.initial).world.counters
      = ⟨0, 1, 0, 0, 0, 0, 0, 0, 0⟩ ∧
    (onUpdate .bits64 podFoo cmBar World.initial).world.counters.get podFoo.kind .update
      = World.initial.counters.get podFoo.kind .update + 1 :=
  ⟨⟨by decide, by decide⟩, by decide,
    (C8_onUpdate_frame .bits64 podFoo cmBar World.initial (by decide) (by decide)).1⟩

/-- C8 as stated fails at the largest `int`: with `totalPodUpdateCount =
2^63 - 1`, `onUpdate` of a Pod changes it by `-(2^64 - 1)`, to `-2^63`, not
by `+1`. -/
theorem C8_counterexample_wraps :
    (onUpdate .bits64 podFoo podFoo
      ⟨⟨0, 9223372036854775807, 0, 0, 0, 0, 0, 0, 0⟩, []⟩).world.counters.totalPodUpdateCount
      = -9223372036854775808 ∧
    (onUpdate .bits64 podFoo podFoo
      ⟨⟨0, 9223372036854775807, 0, 0, 0, 0, 0, 0, 0⟩, []⟩).world.counters.totalPodUpdateCount
      - 9223372036854775807 ≠ 1 := by
  decide

/-! ## C9: failed type assertions -/

/-- C9: `onUpdate` panics on a type assertion if and only if `oldObj` is a
Pod and `newObj` is not a Pod, or `oldObj` is a ConfigMap and `newObj` is not
a ConfigMap (nil pointers of either type included); in particular it does not
fail a type assertion when `oldObj` and `newObj` have the same kind, it does
not panic at all when `oldObj` is neither a Pod nor a ConfigMap, and `onAdd`
and `onDelete` never fail a type assertion. When no object is a nil pointer
a failed type assertion is the only panic: `onUpdate` panics exactly under
the condition above, not when the kinds agree, and `onAdd` and `onDelete` do
not panic. -/
theorem C9_type_assertion_panics (sz : IntSize) (oldObj newObj obj : Obj) (w : World) :
    ((onUpdate sz oldObj newObj w).panic = some .typeAssertion ↔
      (oldObj.kind = .pod ∧ newObj.kind ≠ .pod) ∨
      (oldObj.kind = .configMap ∧ newObj.kind ≠ .configMap)) ∧
    (oldObj.kind = newObj.kind → (onUpdate sz oldObj newObj w).panic ≠ some .typeAssertion) ∧
    (oldObj.kind = .unknown → (onUpdate sz oldObj newObj w).panicked = false) ∧
    (onAdd sz obj w).panic ≠ some .typeAssertion ∧
    (onDelete sz obj w).panic ≠ some .typeAssertion ∧
    (oldObj.isNil = false → newObj.isNil = false →
      ((onUpdate sz oldObj newObj w).panicked = true ↔
        (oldObj.kind = .pod ∧ newObj.kind ≠ .pod) ∨
        (oldObj.kind = .configMap ∧ newObj.kind ≠ .configMap))) ∧
    (oldObj.isNil = false → newObj.isNil = false → oldObj.kind = newObj.kind →
      (onUpdate sz oldObj newObj w).panicked = false) ∧
    (obj.isNil = false →
      (onAdd sz obj w).panicked = false ∧ (onDelete sz obj w).panicked = false) := by
  refine ⟨onUpdate_typeAssertion_iff sz oldObj newObj w, ?_, ?_, ?_, ?_, ?_, ?_, ?_⟩
  · intro h hc
    rcases (onUpdate_typeAssertion_iff sz oldObj newObj w).1 hc with ⟨h1, h2⟩ | ⟨h1, h2⟩
    · exact h2 (h ▸ h1)
    · exact h2 (h ▸ h1)
  · intro h
    cases oldObj <;> simp_all [onUpdate, Obj.kind, Outcome.panicked]
  · rw [onAdd_panic]
    split <;> simp
  · rw [onDelete_panic]
    split <;> simp
  · intro hold hnew
    cases oldObj <;> cases newObj <;>
      simp_all [onUpdate, onUpdatePod, onUpdateConfigMap, Obj.assertPod, Obj.assertConfigMap,
        Obj.kind, Obj.isNil, Outcome.panicked]
  · intro hold hnew hk
    exact panicked_of_panic_none (onUpdate_panic_none sz oldObj newObj w hk hold hnew)
  · intro hobj
    exact ⟨panicked_of_panic_none (by simp [onAdd_panic, hobj]),
      panicked_of_panic_none (by simp [onDelete_panic, hobj])⟩

/-! ## C10: order independence -/

/-- C10 (as amended): for every two finite sequences of notifications whose
objects are not nil pointers (Updates with `oldObj` and `newObj` of the same
kind) that are permutations of each other, handling them sequentially from
the same initial counter state panics in neither order and yields the same
final values of all nine counters. -/
theorem C10_order_independent (sz : IntSize) (ns₁ ns₂ : List Notification) (w : World)
    (hperm : ns₁.Perm ns₂) (hkind : ns₁.all Notification.sameKind = true)
    (hnil : ns₁.all Notification.nonNil = true) :
    (run sz ns₁ w).panicked = false ∧
    (run sz ns₂ w).panicked = false ∧
    (run sz ns₁ w).world.counters = (run sz ns₂ w).world.counters := by
  have hkind₂ : ns₂.all Notification.sameKind = true := by
    rw [List.all_eq_true] at hkind ⊢
    intro n hn
    exact hkind n (hperm.mem_iff.2 hn)
  have hnil₂ : ns₂.all Notification.nonNil = true := by
    rw [List.all_eq_true] at hnil ⊢
    intro n hn
    exact hnil n (hperm.mem_iff.2 hn)
  obtain ⟨hp₁, hget₁⟩ := run_get sz ns₁ w hkind hnil
  obtain ⟨hp₂, hget₂⟩ := run_get sz ns₂ w hkind₂ hnil₂
  refine ⟨hp₁, hp₂, Counters.ext_get fun k e => ?_⟩
  rw [hget₁, hget₂]
  unfold occurrences
  rw [hperm.countP_eq]

/-- C10 at a concrete input: a Pod Add and a ConfigMap Add, in either
order. -/
theorem C10_witness :
    [Notification.add podFoo, .add cmBar].Perm [.add cmBar, .add podFoo] ∧
    [Notification.add podFoo, .add cmBar].all Notification.sameKind = true ∧
    [Notification.add podFoo, .add cmBar].all Notification.nonNil = true ∧
    (run .bits64 [.add podFoo, .add cmBar] World.initial).world.counters
      = (run .bits64 [.add cmBar, .add podFoo] World.initial).world.counters :=
  ⟨List.Perm.swap _ _ _, by decide, by decide,
    (C10_order_independent .bits64 [.add podFoo, .add cmBar] [.add cmBar, .add podFoo]
      World.initial (List.Perm.swap _ _ _) (by decide) (by decide)).2.2⟩

/-- C10 as stated fails on a nil pointer: the sequences Add of a nil
`*corev1.Pod`, Add of ConfigMap `default/bar` and its reversal are
permutations of each other with no Update; `onAdd` counts the nil Pod and
then panics, which ends the run, so the first order ends with
`totalCMAddCount = 0` and the second with `totalCMAddCount = 1`. -/
theorem C10_counterexample_nil_pointer :
    [Notification.add .nilPod, .add cmBar].Perm [.add cmBar, .add .nilPod] ∧
    [Notification.add .nilPod, .add cmBar].all Notification.sameKind = true ∧
    (run .bits64 [.add .nilPod, .add cmBar] World.initial).world.counters
      = ⟨1, 0, 0, 0, 0, 0, 0, 0, 0⟩ ∧
    (run .bits64 [.add cmBar, .add .nilPod] World.initial).world.counters
      = ⟨1, 0, 0, 1, 0, 0, 0, 0, 0⟩ :=
  ⟨List.Perm.swap _ _ _, by decide, by decide, by decide⟩

end Informer
